import Mathlib

/-!
Verification development for the openai-proxy repository.

The repository consists of variants of a single HTTP request handler
(src/api/proxy.js and the handlers in src/unnamed).  This file gives a
shallow embedding of the two handlers in src/api/proxy.js:

* `simpleHandler` embeds the first handler of src/api/proxy.js
  (lines 3-79): POST check, required-field check, MD5 hash
  authentication, JSON parse of `messages`, conversion to the OpenAI
  message format, upstream call, plain-text reply.

* `enhancedHandler` embeds the security-enhanced handler of
  src/api/proxy.js (lines 168-399): CORS/OPTIONS handling, method
  check, fixed-window per-IP rate limiting (`checkRateLimit`,
  lines 107-135), content-type dispatch, required-field and length
  checks, timestamp-windowed dynamic secret derivation
  (lines 254-275), timing-safe secret and hash comparison
  (lines 277-300), message parsing/validation/conversion
  (lines 302-347), upstream call and JSON reply (lines 349-391).

Library functions of the Node runtime that the handlers use are
modelled as follows: `crypto.createHash("md5")...digest("hex")` and
`JSON.parse` are taken as parameters of the handlers (`md5`,
`jparse`), since their internals are not part of this repository;
`crypto.timingSafeEqual` on UTF-8 buffers is modelled by
`timingSafeEq` (equal-length byte buffers of UTF-8 encoded strings
are equal iff the strings are equal, and the real function throws on
unequal lengths); `Buffer.from(s, "utf8").length` is `bufLen`;
`Date.now()` is the explicit parameter `nowMs` (milliseconds);
`Map` is an association list.  JavaScript `undefined` for request
fields is `Option.none`, and JavaScript truthiness of strings is
`truthyStr` (absent or empty is falsy).  Upstream fetch behaviour is
the explicit parameter `u : Upstream`; the handler result records how
many upstream calls were made and what message list was sent.
-/

/-- Model of a JavaScript value produced by `JSON.parse`: null,
booleans, numbers (integral model), strings, arrays and objects. -/
inductive JValue where
  | null : JValue
  | jbool : Bool → JValue
  | jnum : Int → JValue
  | jstr : String → JValue
  | jarr : List JValue → JValue
  | jobj : List (String × JValue) → JValue
deriving Repr

/-- JavaScript truthiness of a value (NaN aside, which no claim
touches): null, false, 0 and the empty string are falsy; arrays and
objects, empty or not, are truthy. -/
def jsTruthy : JValue → Bool
  | .null => false
  | .jbool b => b
  | .jnum n => n != 0
  | .jstr s => s != ""
  | .jarr _ => true
  | .jobj _ => true

/-- Truthiness of a possibly-undefined value (`undefined` is falsy). -/
def truthyJ : Option JValue → Bool
  | none => false
  | some v => jsTruthy v

/-- First-key lookup in an object field list. -/
def assocFind : List (String × JValue) → String → Option JValue
  | [], _ => none
  | (k, v) :: rest, key => if k = key then some v else assocFind rest key

/-- JavaScript property access `v[k]`: throws a TypeError on null
(modelled by `Except.error`), yields `undefined` (`none`) on
primitives and on objects lacking the key. -/
def jsGet (v : JValue) (k : String) : Except Unit (Option JValue) :=
  match v with
  | .null => .error ()
  | .jobj fields => .ok (assocFind fields k)
  | _ => .ok none

/-- JavaScript `a || b` on a possibly-undefined first operand. -/
def jOr (a : Option JValue) (b : JValue) : JValue :=
  if truthyJ a then a.getD b else b

/-- JavaScript `String(v)` / template-literal stringification,
restricted to the shapes the handlers can feed it. -/
def jsToString : JValue → String
  | .null => "null"
  | .jbool true => "true"
  | .jbool false => "false"
  | .jnum n => toString n
  | .jstr s => s
  | .jarr xs => String.intercalate "," (xs.attach.map (fun p => jsToString p.1))
  | .jobj _ => "[object Object]"
termination_by v => sizeOf v
decreasing_by
  have h := List.sizeOf_lt_of_mem p.2
  simp only [JValue.jarr.sizeOf_spec]
  omega

/-- JavaScript truthiness of a possibly-undefined string field. -/
def truthyStr : Option String → Bool
  | none => false
  | some s => s != ""

/-- JavaScript `a || b` where both operands are possibly-undefined
strings: the first operand if truthy, otherwise the second. -/
def firstTruthy (a b : Option String) : Option String :=
  if truthyStr a then a else b

/-- JavaScript `a || d` with a string default. -/
def jsOrStr (a : Option String) (d : String) : String :=
  if truthyStr a then a.getD "" else d

/-- Whether the character list `s` starts with `sub`. -/
def listStartsWith : List Char → List Char → Bool
  | _, [] => true
  | [], _ :: _ => false
  | a :: as, b :: bs => a == b && listStartsWith as bs

/-- Whether `sub` occurs as a contiguous run inside `s`. -/
def listContainsSub : List Char → List Char → Bool
  | [], sub => sub.isEmpty
  | c :: cs, sub => listStartsWith (c :: cs) sub || listContainsSub cs sub

/-- JavaScript `s.includes(sub)` for strings. -/
def strIncludes (s sub : String) : Bool :=
  listContainsSub s.toList sub.toList

/-- Leading decimal digits of a character list, or `none` when there
are none (the NaN case of `parseInt`). -/
def parseDigits (cs : List Char) : Option Nat :=
  let ds := cs.takeWhile Char.isDigit
  if ds.isEmpty then none
  else some (ds.foldl (fun a c => a * 10 + (c.toNat - 48)) 0)

/-- Whitespace for the purpose of `parseInt` trimming. -/
def jsWhitespace (c : Char) : Bool :=
  c == ' ' || c == '\t' || c == '\n' || c == '\r'

/-- Leading and trailing whitespace removed from a character list. -/
def trimChars (cs : List Char) : List Char :=
  ((cs.dropWhile jsWhitespace).reverse.dropWhile jsWhitespace).reverse

/-- JavaScript `s.includes(c)` for a single character, as used on the
supplied shared secret. -/
def strContainsChar (s : String) (c : Char) : Bool :=
  s.toList.contains c

/-- JavaScript `parseInt(s)` in base 10: trims whitespace, accepts an
optional sign, reads leading digits; `none` models NaN. -/
def parseIntJs (s : String) : Option Int :=
  match trimChars s.toList with
  | '-' :: rest => (parseDigits rest).map (fun n => -(n : Int))
  | '+' :: rest => (parseDigits rest).map (fun n => (n : Int))
  | cs => (parseDigits cs).map (fun n => (n : Int))

/-- Byte length of `Buffer.from(s, "utf8")`. -/
def bufLen (s : String) : Nat := s.utf8ByteSize

/-- Model of `crypto.timingSafeEqual` on the UTF-8 buffers of two
strings: it throws when the buffer lengths differ, and otherwise
reports byte equality, which for equal-length UTF-8 buffers is
string equality. -/
def timingSafeEq (a b : String) : Except Unit Bool :=
  if bufLen a = bufLen b then .ok (a == b) else .error ()

/-- The guarded comparison pattern of src/api/proxy.js lines 281-282
and 296-297: `buf1.length !== buf2.length || !crypto.timingSafeEqual(buf1, buf2)`.
The first component is the value of that mismatch condition; the
second records whether `timingSafeEqual` was actually invoked (the
`||` short-circuits when the lengths differ). -/
def compareWithLog (a b : String) : Bool × Bool :=
  if bufLen a != bufLen b then (true, false) else (a != b, true)

/-! ## Rate limiting (src/api/proxy.js lines 86-135) -/

/-- One entry of the in-memory rate-limit `Map` (line 112). -/
structure RLEntry where
  requests : Nat
  tokens : Nat
  resetTime : Nat
deriving Repr, DecidableEq

/-- The rate-limit store: a string-keyed map, modelled as an
association list with at most one binding per key. -/
abbrev RLStore := List (String × RLEntry)

/-- `Map.has` / `Map.get` combined: the entry stored for `ip`. -/
def storeGet : RLStore → String → Option RLEntry
  | [], _ => none
  | (k, v) :: rest, ip => if k = ip then some v else storeGet rest ip

/-- `Map.set`: replace the binding for `ip`, or append one. -/
def storeSet : RLStore → String → RLEntry → RLStore
  | [], ip, e => [(ip, e)]
  | (k, v) :: rest, ip, e =>
    if k = ip then (ip, e) :: rest else (k, v) :: storeSet rest ip e

def RATE_LIMIT_WINDOW : Nat := 60 * 1000
def RATE_LIMIT_MAX_REQUESTS : Nat := 20
def RATE_LIMIT_MAX_TOKENS : Nat := 100000
def MAX_MESSAGE_LENGTH : Nat := 500000

/-- Result of `checkRateLimit`: `resetIn` is only present on
rejection (line 129). -/
structure RLResult where
  allowed : Bool
  remaining : Nat
  resetIn : Option Nat
deriving Repr, DecidableEq

/-- Embedding of `checkRateLimit` (src/api/proxy.js lines 107-135).
Returns the updated store together with the decision. -/
def checkRateLimit (store : RLStore) (ip : String) (now : Nat) :
    RLStore × RLResult :=
  match storeGet store ip with
  | none =>
    (storeSet store ip ⟨1, 0, now + RATE_LIMIT_WINDOW⟩,
     ⟨true, RATE_LIMIT_MAX_REQUESTS - 1, none⟩)
  | some data =>
    if now > data.resetTime then
      (storeSet store ip ⟨1, 0, now + RATE_LIMIT_WINDOW⟩,
       ⟨true, RATE_LIMIT_MAX_REQUESTS - 1, none⟩)
    else if data.requests ≥ RATE_LIMIT_MAX_REQUESTS then
      (store, ⟨false, 0, some (data.resetTime - now)⟩)
    else
      (storeSet store ip ⟨data.requests + 1, data.tokens, data.resetTime⟩,
       ⟨true, RATE_LIMIT_MAX_REQUESTS - (data.requests + 1), none⟩)

/-- A sequence of `checkRateLimit` calls for one ip at the given
times; returns the final store and how many calls were admitted. -/
def runRL (store : RLStore) (ip : String) : List Nat → RLStore × Nat
  | [] => (store, 0)
  | t :: ts =>
    let r := checkRateLimit store ip t
    let rest := runRL r.1 ip ts
    (rest.1, (if r.2.allowed then 1 else 0) + rest.2)

/-- A sequence of `checkRateLimit` calls for arbitrary ips and times;
returns the final store. -/
def runCalls : RLStore → List (String × Nat) → RLStore
  | s, [] => s
  | s, (ip, t) :: rest => runCalls (checkRateLimit s ip t).1 rest

/-- Every entry of the store has a zero `tokens` field. -/
def allTokensZero (s : RLStore) : Bool :=
  s.all (fun p => p.2.tokens == 0)

/-- Replace every entry's `tokens` field using `f`, leaving
`requests` and `resetTime` untouched. -/
def withTokens (f : Nat → Nat) (s : RLStore) : RLStore :=
  s.map (fun p => (p.1, ⟨p.2.requests, f p.2.tokens, p.2.resetTime⟩))

/-- `Math.ceil(n / 1000)` on a nonnegative integral count
(src/api/proxy.js line 194). -/
def ceilDiv1000 (n : Nat) : Nat := (n + 999) / 1000

/-! ## Requests, upstream behaviour and handler results -/

/-- Request shape seen by the simple handler (src/api/proxy.js
lines 3-79): only `req.method` and the `messages`/`hash` body fields
matter; absent fields are `none`. -/
structure SimpleReq where
  method : String
  messages : Option String
  hash : Option String
deriving Repr, DecidableEq

/-- Request shape seen by the enhanced handler: method, content-type
header, the body fields and their `x-...` header fallbacks
(lines 204-231), and the address sources used by `getClientIP`
(lines 98-104). -/
structure EnhReq where
  method : String
  contentType : Option String
  bodyMessages : Option String
  bodyHash : Option String
  hdrHash : Option String
  bodySecret : Option String
  hdrSecret : Option String
  bodyTimestamp : Option String
  hdrTimestamp : Option String
  xForwardedFor : Option String
  xRealIp : Option String
  connRemoteAddress : Option String
  sockRemoteAddress : Option String
deriving Repr, DecidableEq

/-- Embedding of `getClientIP` (src/api/proxy.js lines 98-104). -/
def getClientIP (r : EnhReq) : String :=
  jsOrStr
    (firstTruthy r.xForwardedFor
      (firstTruthy r.xRealIp
        (firstTruthy r.connRemoteAddress r.sockRemoteAddress)))
    "unknown"

/-- Behaviour of the one upstream `fetch` to the OpenAI API: whether
`response.ok` holds, the HTTP status, and
`data.choices[i].message.content` for each choice. -/
structure Upstream where
  ok : Bool
  status : Nat
  choiceContents : List String
deriving Repr, DecidableEq

/-- Response body shapes the handlers produce. -/
inductive RBody where
  | jsonError : String → RBody
  | jsonErrorReset : String → Nat → RBody
  | text : String → RBody
  | jsonChoices : String → RBody
  | empty : RBody
deriving Repr, DecidableEq

/-- Observable outcome of the enhanced handler: HTTP status, body,
number of upstream calls made, number of `timingSafeEqual`
invocations, the rate-limit store after the request, and the message
list sent upstream (`none` when nothing was sent). -/
structure HRes where
  status : Nat
  body : RBody
  upstreamCalls : Nat
  tseCalls : Nat
  store : RLStore
  sent : Option (List JValue)

/-- Observable outcome of the simple handler. -/
structure SRes where
  status : Nat
  body : RBody
  upstreamCalls : Nat
  sent : Option (List JValue)

/-! ## Message conversion -/

/-- Embedding of the message conversion of the simple handler
(src/api/proxy.js lines 39-45).  Property access on a null element
throws (propagated as `Except.error`, caught by the outer
try/catch); `undefined` results stored in the built object are
modelled as `null`. -/
def convertSimple (m : JValue) : Except Unit JValue := do
  let role ← jsGet m "role"
  let img ← jsGet m "image"
  let msg ← jsGet m "message"
  let newRole : JValue :=
    match role with
    | some (.jstr s) => if s = "system" then .jstr "assistant" else .jstr s
    | some v => v
    | none => .null
  if truthyJ img then
    pure (.jobj [("role", newRole),
      ("content", .jarr [
        .jobj [("type", .jstr "text"), ("text", jOr msg (.jstr ""))],
        .jobj [("type", .jstr "image_url"),
          ("image_url", .jobj [("url",
            .jstr ("data:image/jpeg;base64," ++ jsToString (img.getD .null)))])]])])
  else
    pure (.jobj [("role", newRole), ("content", msg.getD .null)])

/-- Embedding of the message conversion of the enhanced handler
(src/api/proxy.js lines 317-347): old format with separate `image`
and `message` fields, pass-through for a `content` array, regular
text message otherwise. -/
def convertEnh (m : JValue) : Except Unit JValue := do
  let img ← jsGet m "image"
  let msg ← jsGet m "message"
  let role ← jsGet m "role"
  let c ← jsGet m "content"
  if truthyJ img && truthyJ msg then
    pure (.jobj [("role", jOr role (.jstr "user")),
      ("content", .jarr [
        .jobj [("type", .jstr "text"), ("text", msg.getD .null)],
        .jobj [("type", .jstr "image_url"),
          ("image_url", .jobj [("url",
            .jstr ("data:image/jpeg;base64," ++ jsToString (img.getD .null)))])]])])
  else
    match c with
    | some (.jarr _) =>
      if truthyJ c then pure m else
        pure (.jobj [("role", jOr role (.jstr "user")),
          ("content", jOr msg (jOr c (.jstr "")))])
    | _ =>
      pure (.jobj [("role", jOr role (.jstr "user")),
        ("content", jOr msg (jOr c (.jstr "")))])

/-- JavaScript `array.map(cb)` with a callback that can throw:
elements are converted left to right and the first throw aborts the
whole map. -/
def mapConvert (f : JValue → Except Unit JValue) : List JValue → Except Unit (List JValue)
  | [] => .ok []
  | x :: xs => do
    let y ← f x
    let ys ← mapConvert f xs
    pure (y :: ys)

/-! ## The simple handler (src/api/proxy.js lines 3-79) -/

/-- Embedding of src/api/proxy.js lines 30-73, the part of the simple
handler after the hash check: JSON parse of `messages` (a non-array
parse result reaches `parsedMessages.map`, whose TypeError the
try/catch converts to a 500 response, as with a conversion throw),
the upstream call, and the plain-text reply
`data.choices[0]?.message?.content || "No response generated"`. -/
def simpleParse (jparse : String → Option JValue) (ms : String)
    (u : Upstream) : SRes :=
  match jparse ms with
  | none => ⟨400, .jsonError "Invalid messages format", 0, none⟩
  | some (.jarr parsed) =>
    match mapConvert convertSimple parsed with
    | .error _ => ⟨500, .jsonError "Internal server error", 0, none⟩
    | .ok converted =>
      if !u.ok then
        ⟨500, .jsonError "OpenAI API request failed", 1, some converted⟩
      else
        let reply :=
          match u.choiceContents.head? with
          | some c => if c == "" then "No response generated" else c
          | none => "No response generated"
        ⟨200, .text reply, 1, some converted⟩
  | some _ => ⟨500, .jsonError "Internal server error", 0, none⟩

/-- Embedding of the first handler of src/api/proxy.js (lines 3-79).
`md5` models the hex MD5 digest, `jparse` models `JSON.parse` (with
`none` for a parse failure), `env` is `process.env.SHARED_SECRET`,
`u` the upstream behaviour. -/
def simpleHandler (md5 : String → String) (jparse : String → Option JValue)
    (env : Option String) (req : SimpleReq) (u : Upstream) : SRes :=
  if req.method ≠ "POST" then ⟨405, .jsonError "Method not allowed", 0, none⟩
  else if !truthyStr req.messages || !truthyStr req.hash then
    ⟨400, .jsonError "Missing required fields", 0, none⟩
  else
    let ms := req.messages.getD ""
    let hsh := req.hash.getD ""
    let secret := jsOrStr env "your_secure_secret_key_here"
    let expectedHash := md5 (ms ++ secret)
    if hsh ≠ expectedHash then ⟨401, .jsonError "Invalid authentication", 0, none⟩
    else simpleParse jparse ms u

/-! ## The enhanced handler (src/api/proxy.js lines 168-399) -/

/-- Outcome of the secret-derivation step (lines 254-275): either the
timestamp window check failed, or an expected secret was chosen (the
flag records the `isLegacyAuth` variable). -/
inductive AuthSecret where
  | expired : AuthSecret
  | secret : String → Bool → AuthSecret
deriving Repr, DecidableEq

/-- Embedding of src/api/proxy.js lines 254-275: with a truthy
timestamp and an underscore in the supplied secret, the dynamic
secret `baseSecret + "_" + timestamp` is used, after rejecting
timestamps that differ from the current time by more than 300
seconds; `parseInt` returning NaN makes the window comparison false,
so such a timestamp is not rejected.  Otherwise the base secret is
used (legacy authentication). -/
def deriveSecret (baseSecret : String) (timestamp : Option String)
    (sec : String) (nowMs : Nat) : AuthSecret :=
  if truthyStr timestamp && strContainsChar sec '_' then
    let ts := timestamp.getD ""
    match parseIntJs ts with
    | some rt =>
      if ((nowMs / 1000 : Nat) - rt : Int).natAbs > 300 then .expired
      else .secret (baseSecret ++ "_" ++ ts) false
    | none => .secret (baseSecret ++ "_" ++ ts) false
  else .secret baseSecret true

/-- Embedding of src/api/proxy.js lines 349-391: the upstream call
and the construction of the client reply.  An empty `choices` array
makes line 379 throw, which the surrounding try/catch converts to a
500 response. -/
def enhForward (u : Upstream) (converted : List JValue) (tse : Nat)
    (store : RLStore) : HRes :=
  if !u.ok then
    ⟨u.status, .jsonError "OpenAI API request failed", 1, tse, store, some converted⟩
  else
    match u.choiceContents.head? with
    | none => ⟨500, .jsonError "Internal server error", 1, tse, store, some converted⟩
    | some c => ⟨200, .jsonChoices c, 1, tse, store, some converted⟩

/-- Embedding of src/api/proxy.js lines 302-347: JSON parse of
`messages`, the array/nonempty structure check, and the message
conversion (a conversion throw is caught as a 500). -/
def enhParse (jparse : String → Option JValue) (ms : String) (u : Upstream)
    (tse : Nat) (store : RLStore) : HRes :=
  match jparse ms with
  | none => ⟨400, .jsonError "Invalid messages format", 0, tse, store, none⟩
  | some (.jarr parsed) =>
    if parsed.isEmpty then
      ⟨400, .jsonError "Invalid messages structure", 0, tse, store, none⟩
    else
      match mapConvert convertEnh parsed with
      | .error _ => ⟨500, .jsonError "Internal server error", 0, tse, store, none⟩
      | .ok converted => enhForward u converted tse store
  | some _ => ⟨400, .jsonError "Invalid messages structure", 0, tse, store, none⟩

/-- Embedding of src/api/proxy.js lines 254-347: secret derivation,
the two guarded timing-safe comparisons, then parsing/forwarding. -/
def enhAuth (md5 : String → String) (jparse : String → Option JValue)
    (baseSecret : String) (timestamp : Option String) (sec ms hsh : String)
    (nowMs : Nat) (u : Upstream) (store : RLStore) : HRes :=
  match deriveSecret baseSecret timestamp sec nowMs with
  | .expired => ⟨401, .jsonError "Request timestamp expired", 0, 0, store, none⟩
  | .secret expectedSecret _ =>
    let q1 := compareWithLog sec expectedSecret
    if q1.1 then
      ⟨401, .jsonError "Invalid authentication", 0, q1.2.toNat, store, none⟩
    else
      let expectedHash := md5 (ms ++ expectedSecret)
      let q2 := compareWithLog hsh expectedHash
      if q2.1 then
        ⟨401, .jsonError "Invalid authentication", 0, q1.2.toNat + q2.2.toNat, store, none⟩
      else enhParse jparse ms u (q1.2.toNat + q2.2.toNat) store

/-- Embedding of the security-enhanced handler of src/api/proxy.js
(lines 168-399).  The JSON and form-urlencoded content-type branches
extract the same fields (lines 204-225), so they are merged into one
branch guarded by the disjunction of the two `includes` tests. -/
def enhancedHandler (md5 : String → String) (jparse : String → Option JValue)
    (env : Option String) (store : RLStore) (req : EnhReq) (nowMs : Nat)
    (u : Upstream) : HRes :=
  let clientIP := getClientIP req
  if req.method = "OPTIONS" then ⟨200, .empty, 0, 0, store, none⟩
  else if req.method ≠ "POST" then
    ⟨405, .jsonError "Method not allowed", 0, 0, store, none⟩
  else
    let rl := checkRateLimit store clientIP nowMs
    if !rl.2.allowed then
      ⟨429, .jsonErrorReset "Rate limit exceeded" (ceilDiv1000 (rl.2.resetIn.getD 0)),
        0, 0, rl.1, none⟩
    else
      let ct := req.contentType.getD ""
      if !(strIncludes ct "application/json" ||
           strIncludes ct "application/x-www-form-urlencoded") then
        ⟨400, .jsonError "Unsupported content type", 0, 0, rl.1, none⟩
      else
        let messages := req.bodyMessages
        let hash := firstTruthy req.bodyHash req.hdrHash
        let secret := firstTruthy req.bodySecret req.hdrSecret
        let timestamp := firstTruthy req.bodyTimestamp req.hdrTimestamp
        if !truthyStr messages || !truthyStr hash || !truthyStr secret then
          ⟨400, .jsonError "Missing required fields", 0, 0, rl.1, none⟩
        else
          let ms := messages.getD ""
          if ms.length > MAX_MESSAGE_LENGTH then
            ⟨400, .jsonError "Message too long", 0, 0, rl.1, none⟩
          else if !truthyStr env then
            ⟨500, .jsonError "Server configuration error", 0, 0, rl.1, none⟩
          else
            enhAuth md5 jparse (env.getD "") timestamp (secret.getD "") ms
              (hash.getD "") nowMs u rl.1

/-! ## Concrete fixtures for witnesses and counterexamples

`md5Fix` and `jparseFix` are concrete instantiations of the hash and
parse parameters, used only to evaluate the handlers at specific
inputs; the theorems themselves quantify over these parameters. -/

def md5Fix : String → String := fun s => "H" ++ s

def jparseFix : String → Option JValue := fun s =>
  if s = "[1]" then some (.jarr [.jnum 1])
  else if s = "5" then some (.jnum 5)
  else if s = "[]" then some (.jarr [])
  else none

def upOk : Upstream := ⟨true, 200, ["hi"]⟩

def upFail : Upstream := ⟨false, 429, []⟩

/-- A successful upstream response whose first completion content is
the empty string. -/
def upEmptyContent : Upstream := ⟨true, 200, [""]⟩

/-- A successful upstream response with an empty choices array. -/
def upNoChoices : Upstream := ⟨true, 200, []⟩

/-- A POST request that passes legacy authentication against the base
secret "sek" (hash `md5Fix ("[1]" ++ "sek")`). -/
def reqLegacy : EnhReq :=
  ⟨"POST", some "application/json", some "[1]", some "H[1]sek", none,
   some "sek", none, none, none, some "9.9.9.9", none, none, none⟩

/-- A POST request using the dynamic-secret format: timestamp "1000"
and supplied secret "sek_1000". -/
def reqDyn : EnhReq :=
  ⟨"POST", some "application/json", some "[1]", some "H[1]sek_1000", none,
   some "sek_1000", none, some "1000", none, some "9.9.9.9", none, none, none⟩

/-- An OPTIONS preflight request. -/
def reqOpts : EnhReq :=
  ⟨"OPTIONS", some "application/json", some "[1]", some "H[1]sek", none,
   some "sek", none, none, none, some "9.9.9.9", none, none, none⟩

/-- A simple-handler request that passes authentication against the
secret "sek". -/
def sreqFix : SimpleReq := ⟨"POST", some "[1]", some "H[1]sek"⟩

/-- An enhanced-handler POST request whose supplied hash is wrong. -/
def reqBadHash : EnhReq :=
  ⟨"POST", some "application/json", some "[1]", some "bad", none,
   some "sek", none, none, none, some "9.9.9.9", none, none, none⟩

/-- A simple-handler request whose messages field does not parse. -/
def sreqBadJson : SimpleReq := ⟨"POST", some "bad", some "Hbadsek"⟩

/-- An authenticated request whose messages field does not parse. -/
def reqBadJson : EnhReq :=
  ⟨"POST", some "application/json", some "bad", some "Hbadsek", none,
   some "sek", none, none, none, some "9.9.9.9", none, none, none⟩

/-- An authenticated request whose messages field parses to a
non-array value. -/
def reqNonArr : EnhReq :=
  ⟨"POST", some "application/json", some "5", some "H5sek", none,
   some "sek", none, none, none, some "9.9.9.9", none, none, none⟩

/-- An authenticated request whose messages field parses to the empty
array. -/
def reqEmptyArr : EnhReq :=
  ⟨"POST", some "application/json", some "[]", some "H[]sek", none,
   some "sek", none, none, none, some "9.9.9.9", none, none, none⟩

/-- A store in which 9.9.9.9 has exhausted its window of 20 requests
(reset time 5000). -/
def storeFull : RLStore := [("9.9.9.9", ⟨20, 0, 5000⟩)]

/-! ## Store lemmas -/

theorem storeGet_storeSet_self (s : RLStore) (ip : String) (e : RLEntry) :
    storeGet (storeSet s ip e) ip = some e := by
  induction s with
  | nil => simp [storeSet, storeGet]
  | cons p rest ih =>
    obtain ⟨k, v⟩ := p
    by_cases h : k = ip
    · simp [storeSet, storeGet, h]
    · simp [storeSet, storeGet, h, ih]

theorem storeGet_mem (s : RLStore) (ip : String) (e : RLEntry)
    (h : storeGet s ip = some e) : (ip, e) ∈ s := by
  induction s with
  | nil => simp [storeGet] at h
  | cons p rest ih =>
    obtain ⟨k, v⟩ := p
    by_cases hk : k = ip
    · subst hk
      simp [storeGet] at h
      subst h
      exact List.mem_cons_self _ _
    · simp [storeGet, hk] at h
      exact List.mem_cons_of_mem _ (ih h)

theorem allTokensZero_get (s : RLStore) (ip : String) (e : RLEntry)
    (hs : allTokensZero s = true) (h : storeGet s ip = some e) : e.tokens = 0 := by
  have hm := storeGet_mem s ip e h
  have := List.all_eq_true.mp hs _ hm
  simpa using this

theorem allTokensZero_storeSet (s : RLStore) (ip : String) (e : RLEntry)
    (hs : allTokensZero s = true) (he : e.tokens = 0) :
    allTokensZero (storeSet s ip e) = true := by
  induction s with
  | nil => simp [storeSet, allTokensZero, he]
  | cons p rest ih =>
    obtain ⟨k, v⟩ := p
    simp [allTokensZero] at hs
    by_cases h : k = ip
    · simp [storeSet, h, allTokensZero, he]
      exact fun a b hb => hs.2 a b hb
    · simp [storeSet, h, allTokensZero]
      refine ⟨hs.1, ?_⟩
      have := ih (by simp [allTokensZero]; exact hs.2)
      simpa [allTokensZero] using this

theorem checkRateLimit_tokens (s : RLStore) (ip : String) (now : Nat)
    (hs : allTokensZero s = true) :
    allTokensZero (checkRateLimit s ip now).1 = true := by
  unfold checkRateLimit
  cases hget : storeGet s ip with
  | none => exact allTokensZero_storeSet s ip _ hs rfl
  | some e =>
    by_cases h1 : now > e.resetTime
    · simp [h1]
      exact allTokensZero_storeSet s ip _ hs rfl
    · by_cases h2 : e.requests ≥ RATE_LIMIT_MAX_REQUESTS
      · simp [h1, h2]
        exact hs
      · simp [h1, h2]
        exact allTokensZero_storeSet s ip _ hs (allTokensZero_get s ip e hs hget)

theorem runCalls_tokens (calls : List (String × Nat)) (s : RLStore)
    (hs : allTokensZero s = true) : allTokensZero (runCalls s calls) = true := by
  induction calls generalizing s with
  | nil => exact hs
  | cons c rest ih =>
    obtain ⟨ip, t⟩ := c
    exact ih _ (checkRateLimit_tokens s ip t hs)

theorem storeGet_withTokens (f : Nat → Nat) (s : RLStore) (ip : String) :
    storeGet (withTokens f s) ip =
      (storeGet s ip).map (fun e => ⟨e.requests, f e.tokens, e.resetTime⟩) := by
  induction s with
  | nil => simp [withTokens, storeGet]
  | cons p rest ih =>
    obtain ⟨k, v⟩ := p
    by_cases h : k = ip
    · simp [withTokens, storeGet, h]
    · simp only [withTokens, List.map, storeGet] at ih ⊢
      simp [h, ih, withTokens]

theorem checkRateLimit_withTokens (f : Nat → Nat) (s : RLStore) (ip : String)
    (now : Nat) :
    (checkRateLimit (withTokens f s) ip now).2 = (checkRateLimit s ip now).2 := by
  unfold checkRateLimit
  rw [storeGet_withTokens]
  cases hget : storeGet s ip with
  | none => simp
  | some e =>
    by_cases h1 : now > e.resetTime
    · simp [h1]
    · by_cases h2 : e.requests ≥ RATE_LIMIT_MAX_REQUESTS
      · simp [h1, h2]
      · simp [h1, h2]

theorem runRL_bound (ip : String) (ts : List Nat) :
    ∀ (s : RLStore) (e : RLEntry), storeGet s ip = some e →
    (∀ t ∈ ts, t ≤ e.resetTime) →
    (runRL s ip ts).2 ≤ RATE_LIMIT_MAX_REQUESTS - e.requests := by
  induction ts with
  | nil => intro s e _ _; simp [runRL]
  | cons t rest ih =>
    intro s e hget hall
    have ht : t ≤ e.resetTime := hall t (List.mem_cons_self _ _)
    have hnot : ¬ (t > e.resetTime) := by omega
    by_cases hr : e.requests ≥ RATE_LIMIT_MAX_REQUESTS
    · have hc : checkRateLimit s ip t = (s, ⟨false, 0, some (e.resetTime - t)⟩) := by
        unfold checkRateLimit
        rw [hget]
        simp [hnot, hr]
      have htail := ih s e hget (fun t' ht' => hall t' (List.mem_cons_of_mem _ ht'))
      simp only [runRL, hc]
      simpa using htail
    · have hc : checkRateLimit s ip t =
          (storeSet s ip ⟨e.requests + 1, e.tokens, e.resetTime⟩,
           ⟨true, RATE_LIMIT_MAX_REQUESTS - (e.requests + 1), none⟩) := by
        unfold checkRateLimit
        rw [hget]
        simp [hnot, hr]
      have hget' := storeGet_storeSet_self s ip ⟨e.requests + 1, e.tokens, e.resetTime⟩
      have htail := ih _ _ hget'
        (fun t' ht' => hall t' (List.mem_cons_of_mem _ ht'))
      simp only [runRL, hc]
      simp only [RATE_LIMIT_MAX_REQUESTS] at hr htail ⊢
      simp only [if_pos trivial]
      omega

/-! ## Comparison lemmas -/

theorem compareWithLog_self (a : String) : compareWithLog a a = (false, true) := by
  simp [compareWithLog]

theorem compareWithLog_fst_of_ne (a b : String) (h : a ≠ b) :
    (compareWithLog a b).1 = true := by
  unfold compareWithLog
  split
  · rfl
  · simpa using h

theorem compareWithLog_called_len (a b : String)
    (h : (compareWithLog a b).2 = true) : bufLen a = bufLen b := by
  unfold compareWithLog at h
  split at h
  · simp at h
  · next hc => simpa using hc

theorem timingSafeEq_ok_of_len (a b : String) (h : bufLen a = bufLen b) :
    timingSafeEq a b = .ok (a == b) := by
  simp [timingSafeEq, h]

/-! ## Secret-derivation and authentication-stage lemmas -/

theorem truthyStr_some {s : String} (h : s ≠ "") : truthyStr (some s) = true := by
  simp [truthyStr, h]

theorem deriveSecret_expired_eq (base ts sec : String) (nowMs : Nat) (rt : Int)
    (hts : ts ≠ "") (hus : strContainsChar sec '_' = true)
    (hp : parseIntJs ts = some rt)
    (hw : 300 < ((nowMs / 1000 : Nat) - rt : Int).natAbs) :
    deriveSecret base (some ts) sec nowMs = .expired := by
  unfold deriveSecret
  rw [truthyStr_some hts, hus]
  simp only [Bool.and_self, if_true]
  simp only [Option.getD_some, hp]
  rw [if_pos hw]

theorem deriveSecret_dyn_eq (base ts sec : String) (nowMs : Nat) (rt : Int)
    (hts : ts ≠ "") (hus : strContainsChar sec '_' = true)
    (hp : parseIntJs ts = some rt)
    (hw : ¬ 300 < ((nowMs / 1000 : Nat) - rt : Int).natAbs) :
    deriveSecret base (some ts) sec nowMs = .secret (base ++ "_" ++ ts) false := by
  unfold deriveSecret
  rw [truthyStr_some hts, hus]
  simp only [Bool.and_self, if_true]
  simp only [Option.getD_some, hp]
  rw [if_neg hw]

theorem deriveSecret_nan_eq (base ts sec : String) (nowMs : Nat)
    (hts : ts ≠ "") (hus : strContainsChar sec '_' = true)
    (hp : parseIntJs ts = none) :
    deriveSecret base (some ts) sec nowMs = .secret (base ++ "_" ++ ts) false := by
  unfold deriveSecret
  rw [truthyStr_some hts, hus]
  simp only [Bool.and_self, if_true]
  simp only [Option.getD_some, hp]

theorem deriveSecret_legacy_eq (base : String) (tsOpt : Option String)
    (sec : String) (nowMs : Nat)
    (h : truthyStr tsOpt = false ∨ strContainsChar sec '_' = false) :
    deriveSecret base tsOpt sec nowMs = .secret base true := by
  unfold deriveSecret
  rcases h with h | h <;> simp [h]

theorem enhAuth_expired (md5 : String → String) (jparse : String → Option JValue)
    (base : String) (tsOpt : Option String) (sec ms hsh : String) (nowMs : Nat)
    (u : Upstream) (store : RLStore)
    (hd : deriveSecret base tsOpt sec nowMs = .expired) :
    enhAuth md5 jparse base tsOpt sec ms hsh nowMs u store =
      ⟨401, .jsonError "Request timestamp expired", 0, 0, store, none⟩ := by
  unfold enhAuth
  rw [hd]

theorem enhAuth_badSecret (md5 : String → String) (jparse : String → Option JValue)
    (base : String) (tsOpt : Option String) (sec ms hsh : String) (nowMs : Nat)
    (u : Upstream) (store : RLStore) (es : String) (leg : Bool)
    (hd : deriveSecret base tsOpt sec nowMs = .secret es leg)
    (hne : sec ≠ es) :
    enhAuth md5 jparse base tsOpt sec ms hsh nowMs u store =
      ⟨401, .jsonError "Invalid authentication", 0,
        (compareWithLog sec es).2.toNat, store, none⟩ := by
  unfold enhAuth
  rw [hd]
  simp [compareWithLog_fst_of_ne sec es hne]

theorem enhAuth_badHash (md5 : String → String) (jparse : String → Option JValue)
    (base : String) (tsOpt : Option String) (sec ms hsh : String) (nowMs : Nat)
    (u : Upstream) (store : RLStore) (es : String) (leg : Bool)
    (hd : deriveSecret base tsOpt sec nowMs = .secret es leg)
    (hsec : sec = es) (hne : hsh ≠ md5 (ms ++ es)) :
    enhAuth md5 jparse base tsOpt sec ms hsh nowMs u store =
      ⟨401, .jsonError "Invalid authentication", 0,
        1 + (compareWithLog hsh (md5 (ms ++ es))).2.toNat, store, none⟩ := by
  unfold enhAuth
  rw [hd]
  subst hsec
  simp [compareWithLog_self, compareWithLog_fst_of_ne _ _ hne]

theorem enhAuth_pass (md5 : String → String) (jparse : String → Option JValue)
    (base : String) (tsOpt : Option String) (sec ms hsh : String) (nowMs : Nat)
    (u : Upstream) (store : RLStore) (es : String) (leg : Bool)
    (hd : deriveSecret base tsOpt sec nowMs = .secret es leg)
    (hsec : sec = es) (hh : hsh = md5 (ms ++ es)) :
    enhAuth md5 jparse base tsOpt sec ms hsh nowMs u store =
      enhParse jparse ms u 2 store := by
  unfold enhAuth
  rw [hd]
  subst hsec hh
  simp [compareWithLog_self]

theorem enhParse_body_ne_invalidAuth (jparse : String → Option JValue)
    (ms : String) (u : Upstream) (tse : Nat) (store : RLStore) :
    (enhParse jparse ms u tse store).body ≠ .jsonError "Invalid authentication" := by
  unfold enhParse
  cases hj : jparse ms with
  | none => simp
  | some v =>
    cases v with
    | null => simp
    | jbool b => simp
    | jnum n => simp
    | jstr s => simp
    | jobj fs => simp
    | jarr parsed =>
      by_cases he : parsed.isEmpty
      · simp [he]
      · simp only [he, if_false, Bool.false_eq_true]
        cases hc : mapConvert convertEnh parsed with
        | error e => simp
        | ok conv =>
          unfold enhForward
          by_cases hok : u.ok
          · simp only [hok, Bool.not_true, if_false, Bool.false_eq_true]
            cases u.choiceContents.head? with
            | none => simp
            | some c => simp
          · simp [hok]

/-- Path lemma: the hypotheses take a POST request past the rate
limiter, content-type, required-field, length and configuration
checks, so the enhanced handler reduces to its authentication
stage. -/
theorem enhancedHandler_auth_path
    (md5 : String → String) (jparse : String → Option JValue) (env : Option String)
    (store : RLStore) (req : EnhReq) (nowMs : Nat) (u : Upstream)
    (hmethod : req.method = "POST")
    (hrl : (checkRateLimit store (getClientIP req) nowMs).2.allowed = true)
    (hct : (strIncludes (req.contentType.getD "") "application/json" ||
            strIncludes (req.contentType.getD "") "application/x-www-form-urlencoded") = true)
    (hm : truthyStr req.bodyMessages = true)
    (hh : truthyStr (firstTruthy req.bodyHash req.hdrHash) = true)
    (hs : truthyStr (firstTruthy req.bodySecret req.hdrSecret) = true)
    (hlen : ¬ (req.bodyMessages.getD "").length > MAX_MESSAGE_LENGTH)
    (henv : truthyStr env = true) :
    enhancedHandler md5 jparse env store req nowMs u =
      enhAuth md5 jparse (env.getD "")
        (firstTruthy req.bodyTimestamp req.hdrTimestamp)
        ((firstTruthy req.bodySecret req.hdrSecret).getD "")
        (req.bodyMessages.getD "")
        ((firstTruthy req.bodyHash req.hdrHash).getD "") nowMs u
        (checkRateLimit store (getClientIP req) nowMs).1 := by
  unfold enhancedHandler
  rw [hmethod]
  simp [hrl, hct, hm, hh, hs, hlen, henv]

/-! ## Simple-handler lemmas -/

theorem simpleHandler_auth_path
    (md5 : String → String) (jparse : String → Option JValue) (env : Option String)
    (req : SimpleReq) (u : Upstream) (ms hsh : String)
    (hmethod : req.method = "POST") (hm : req.messages = some ms) (hms : ms ≠ "")
    (hh : req.hash = some hsh) (hhs : hsh ≠ "") :
    simpleHandler md5 jparse env req u =
      if hsh ≠ md5 (ms ++ jsOrStr env "your_secure_secret_key_here")
      then ⟨401, .jsonError "Invalid authentication", 0, none⟩
      else simpleParse jparse ms u := by
  unfold simpleHandler
  rw [hmethod, hm, hh]
  simp [truthyStr_some hms, truthyStr_some hhs]

theorem simpleParse_body_ne_invalidAuth (jparse : String → Option JValue)
    (ms : String) (u : Upstream) :
    (simpleParse jparse ms u).body ≠ .jsonError "Invalid authentication" := by
  unfold simpleParse
  cases hj : jparse ms with
  | none => simp
  | some v =>
    cases v with
    | null => simp
    | jbool b => simp
    | jnum n => simp
    | jstr s => simp
    | jobj fs => simp
    | jarr parsed =>
      cases hc : mapConvert convertSimple parsed with
      | error e => simp [hc]
      | ok conv =>
        by_cases hok : u.ok
        · simp [hc, hok]
        · simp [hc, hok]

theorem simpleParse_calls (jparse : String → Option JValue) (ms : String)
    (u : Upstream) (parsed conv : List JValue)
    (hp : jparse ms = some (.jarr parsed))
    (hc : mapConvert convertSimple parsed = .ok conv) :
    (simpleParse jparse ms u).upstreamCalls = 1 := by
  unfold simpleParse
  simp only [hp, hc]
  by_cases hok : u.ok
  · simp [hok]
  · simp [hok]

theorem enhForward_calls (u : Upstream) (conv : List JValue) (tse : Nat)
    (store : RLStore) : (enhForward u conv tse store).upstreamCalls = 1 := by
  unfold enhForward
  by_cases hok : u.ok
  · simp only [hok, Bool.not_true, if_false, Bool.false_eq_true]
    cases u.choiceContents.head? with
    | none => rfl
    | some c => rfl
  · simp [hok]

theorem enhParse_eq_forward (jparse : String → Option JValue) (ms : String)
    (u : Upstream) (tse : Nat) (store : RLStore) (parsed conv : List JValue)
    (hp : jparse ms = some (.jarr parsed)) (hne : parsed ≠ [])
    (hc : mapConvert convertEnh parsed = .ok conv) :
    enhParse jparse ms u tse store = enhForward u conv tse store := by
  unfold enhParse
  have he : parsed.isEmpty = false := by
    cases parsed with
    | nil => exact absurd rfl hne
    | cons a l => rfl
  simp only [hp, he, Bool.false_eq_true, if_false, hc]

theorem enhParse_none (jparse : String → Option JValue) (ms : String)
    (u : Upstream) (tse : Nat) (store : RLStore) (hp : jparse ms = none) :
    enhParse jparse ms u tse store =
      ⟨400, .jsonError "Invalid messages format", 0, tse, store, none⟩ := by
  unfold enhParse
  rw [hp]

theorem enhParse_not_array (jparse : String → Option JValue) (ms : String)
    (u : Upstream) (tse : Nat) (store : RLStore) (v : JValue)
    (hp : jparse ms = some v) (hv : ∀ xs, v ≠ JValue.jarr xs) :
    enhParse jparse ms u tse store =
      ⟨400, .jsonError "Invalid messages structure", 0, tse, store, none⟩ := by
  unfold enhParse
  rw [hp]
  cases v with
  | jarr xs => exact absurd rfl (hv xs)
  | null => rfl
  | jbool b => rfl
  | jnum n => rfl
  | jstr s => rfl
  | jobj fs => rfl

theorem enhParse_empty_array (jparse : String → Option JValue) (ms : String)
    (u : Upstream) (tse : Nat) (store : RLStore)
    (hp : jparse ms = some (.jarr [])) :
    enhParse jparse ms u tse store =
      ⟨400, .jsonError "Invalid messages structure", 0, tse, store, none⟩ := by
  unfold enhParse
  rw [hp]
  rfl

theorem simpleParse_none (jparse : String → Option JValue) (ms : String)
    (u : Upstream) (hp : jparse ms = none) :
    simpleParse jparse ms u =
      ⟨400, .jsonError "Invalid messages format", 0, none⟩ := by
  unfold simpleParse
  rw [hp]

theorem enhForward_notOk (u : Upstream) (conv : List JValue) (tse : Nat)
    (store : RLStore) (h : u.ok = false) :
    enhForward u conv tse store =
      ⟨u.status, .jsonError "OpenAI API request failed", 1, tse, store, some conv⟩ := by
  unfold enhForward
  simp [h]

theorem enhForward_ok (u : Upstream) (conv : List JValue) (tse : Nat)
    (store : RLStore) (c : String) (cs : List String)
    (h : u.ok = true) (hc : u.choiceContents = c :: cs) :
    enhForward u conv tse store = ⟨200, .jsonChoices c, 1, tse, store, some conv⟩ := by
  unfold enhForward
  simp [h, hc]

theorem simpleParse_notOk (jparse : String → Option JValue) (ms : String)
    (u : Upstream) (parsed conv : List JValue)
    (hp : jparse ms = some (.jarr parsed))
    (hcv : mapConvert convertSimple parsed = .ok conv) (h : u.ok = false) :
    simpleParse jparse ms u =
      ⟨500, .jsonError "OpenAI API request failed", 1, some conv⟩ := by
  unfold simpleParse
  simp only [hp, hcv]
  simp [h]

theorem simpleParse_ok (jparse : String → Option JValue) (ms : String)
    (u : Upstream) (parsed conv : List JValue) (c : String) (cs : List String)
    (hp : jparse ms = some (.jarr parsed))
    (hcv : mapConvert convertSimple parsed = .ok conv) (h : u.ok = true)
    (hcc : u.choiceContents = c :: cs) (hcne : c ≠ "") :
    simpleParse jparse ms u = ⟨200, .text c, 1, some conv⟩ := by
  unfold simpleParse
  simp only [hp, hcv]
  simp [h, hcc, hcne]

theorem simpleParse_empty_content (jparse : String → Option JValue) (ms : String)
    (u : Upstream) (parsed conv : List JValue) (cs : List String)
    (hp : jparse ms = some (.jarr parsed))
    (hcv : mapConvert convertSimple parsed = .ok conv) (h : u.ok = true)
    (hcc : u.choiceContents = "" :: cs) :
    simpleParse jparse ms u = ⟨200, .text "No response generated", 1, some conv⟩ := by
  unfold simpleParse
  simp only [hp, hcv]
  simp [h, hcc]

theorem simpleParse_no_choices (jparse : String → Option JValue) (ms : String)
    (u : Upstream) (parsed conv : List JValue)
    (hp : jparse ms = some (.jarr parsed))
    (hcv : mapConvert convertSimple parsed = .ok conv) (h : u.ok = true)
    (hcc : u.choiceContents = []) :
    simpleParse jparse ms u = ⟨200, .text "No response generated", 1, some conv⟩ := by
  unfold simpleParse
  simp only [hp, hcv]
  simp [h, hcc]

theorem enhForward_no_choices (u : Upstream) (conv : List JValue) (tse : Nat)
    (store : RLStore) (h : u.ok = true) (hcc : u.choiceContents = []) :
    enhForward u conv tse store =
      ⟨500, .jsonError "Internal server error", 1, tse, store, some conv⟩ := by
  unfold enhForward
  simp [h, hcc]

theorem compareWithLog_len_ne (a b : String) (h : bufLen a ≠ bufLen b) :
    compareWithLog a b = (true, false) := by
  simp [compareWithLog, h]

/-! ## Claims -/

/-- Claim C3: for every client IP, the rate limiter admits at most 20
requests per fixed 60-second window: the first request in a window
creates a counter that resets 60 seconds later, each admitted request
increments it, any request arriving when the counter has reached 20
within the same window is rejected (HTTP 429 with a resetIn value at
the handler level), and a request arriving after the reset time
starts a fresh window with count 1. -/
theorem c3_rate_limit_window :
    (∀ (store : RLStore) (ip : String) (now : Nat),
      storeGet store ip = none →
      checkRateLimit store ip now =
        (storeSet store ip ⟨1, 0, now + RATE_LIMIT_WINDOW⟩,
         ⟨true, RATE_LIMIT_MAX_REQUESTS - 1, none⟩))
    ∧ (∀ (store : RLStore) (ip : String) (now : Nat) (e : RLEntry),
      storeGet store ip = some e → now ≤ e.resetTime →
      e.requests < RATE_LIMIT_MAX_REQUESTS →
      checkRateLimit store ip now =
        (storeSet store ip ⟨e.requests + 1, e.tokens, e.resetTime⟩,
         ⟨true, RATE_LIMIT_MAX_REQUESTS - (e.requests + 1), none⟩))
    ∧ (∀ (store : RLStore) (ip : String) (now : Nat) (e : RLEntry),
      storeGet store ip = some e → now ≤ e.resetTime →
      RATE_LIMIT_MAX_REQUESTS ≤ e.requests →
      checkRateLimit store ip now = (store, ⟨false, 0, some (e.resetTime - now)⟩))
    ∧ (∀ (store : RLStore) (ip : String) (now : Nat) (e : RLEntry),
      storeGet store ip = some e → e.resetTime < now →
      checkRateLimit store ip now =
        (storeSet store ip ⟨1, 0, now + RATE_LIMIT_WINDOW⟩,
         ⟨true, RATE_LIMIT_MAX_REQUESTS - 1, none⟩))
    ∧ (∀ (store : RLStore) (ip : String) (t1 : Nat) (rest : List Nat),
      storeGet store ip = none →
      (∀ t ∈ rest, t ≤ t1 + RATE_LIMIT_WINDOW) →
      (runRL store ip (t1 :: rest)).2 ≤ RATE_LIMIT_MAX_REQUESTS)
    ∧ (∀ (md5 : String → String) (jparse : String → Option JValue)
        (env : Option String) (store : RLStore) (req : EnhReq) (nowMs : Nat)
        (u : Upstream),
      req.method = "POST" →
      (checkRateLimit store (getClientIP req) nowMs).2.allowed = false →
      (enhancedHandler md5 jparse env store req nowMs u).status = 429 ∧
      (enhancedHandler md5 jparse env store req nowMs u).body =
        .jsonErrorReset "Rate limit exceeded"
          (ceilDiv1000 ((checkRateLimit store (getClientIP req) nowMs).2.resetIn.getD 0)) ∧
      (enhancedHandler md5 jparse env store req nowMs u).upstreamCalls = 0) := by
  refine ⟨?_, ?_, ?_, ?_, ?_, ?_⟩
  · intro store ip now h
    simp only [checkRateLimit, h]
  · intro store ip now e h h1 h2
    simp only [checkRateLimit, h]
    rw [if_neg (by omega), if_neg (by omega)]
  · intro store ip now e h h1 h2
    simp only [checkRateLimit, h]
    rw [if_neg (by omega), if_pos (by omega)]
  · intro store ip now e h h1
    simp only [checkRateLimit, h]
    rw [if_pos (by omega)]
  · intro store ip t1 rest h0 hall
    have hc : checkRateLimit store ip t1 =
        (storeSet store ip ⟨1, 0, t1 + RATE_LIMIT_WINDOW⟩,
         ⟨true, RATE_LIMIT_MAX_REQUESTS - 1, none⟩) := by
      simp only [checkRateLimit, h0]
    have hb := runRL_bound ip rest
      (storeSet store ip ⟨1, 0, t1 + RATE_LIMIT_WINDOW⟩)
      ⟨1, 0, t1 + RATE_LIMIT_WINDOW⟩
      (storeGet_storeSet_self store ip _)
      (fun t ht => hall t ht)
    simp only [runRL, hc]
    simp only [RATE_LIMIT_MAX_REQUESTS] at hb ⊢
    simp only [if_pos trivial]
    omega
  · intro md5 jparse env store req nowMs u hm hrl
    unfold enhancedHandler
    rw [hm]
    simp [hrl]

/-- Witness for C3: each conjunct applied at concrete inputs. -/
theorem c3_rate_limit_window_witness :
    checkRateLimit [] "a" 5 = ([("a", ⟨1, 0, 60005⟩)], ⟨true, 19, none⟩)
    ∧ checkRateLimit [("a", ⟨3, 7, 100⟩)] "a" 50 =
        ([("a", ⟨4, 7, 100⟩)], ⟨true, 16, none⟩)
    ∧ checkRateLimit storeFull "9.9.9.9" 4000 =
        (storeFull, ⟨false, 0, some 1000⟩)
    ∧ checkRateLimit [("a", ⟨5, 0, 100⟩)] "a" 200 =
        ([("a", ⟨1, 0, 60200⟩)], ⟨true, 19, none⟩)
    ∧ (runRL [] "a" (0 :: List.replicate 25 10)).2 ≤ RATE_LIMIT_MAX_REQUESTS
    ∧ (enhancedHandler md5Fix jparseFix (some "sek") storeFull reqLegacy 4000 upOk).status = 429 := by
  refine ⟨?_, ?_, ?_, ?_, ?_, ?_⟩
  · exact c3_rate_limit_window.1 [] "a" 5 rfl
  · exact c3_rate_limit_window.2.1 [("a", ⟨3, 7, 100⟩)] "a" 50 ⟨3, 7, 100⟩ rfl
      (by decide) (by decide)
  · exact c3_rate_limit_window.2.2.1 storeFull "9.9.9.9" 4000 ⟨20, 0, 5000⟩ rfl
      (by decide) (by decide)
  · exact c3_rate_limit_window.2.2.2.1 [("a", ⟨5, 0, 100⟩)] "a" 200 ⟨5, 0, 100⟩ rfl
      (by decide)
  · exact c3_rate_limit_window.2.2.2.2.1 [] "a" 0 (List.replicate 25 10) rfl
      (by decide)
  · exact (c3_rate_limit_window.2.2.2.2.2 md5Fix jparseFix (some "sek") storeFull
      reqLegacy 4000 upOk rfl (by decide)).1

/-- Claim C9: the per-IP token counter is never enforced: across any
sequence of `checkRateLimit` calls the stored `tokens` field stays 0,
and the decision returned by `checkRateLimit` is unchanged under any
modification of the `tokens` fields, so admission depends only on the
request count and `RATE_LIMIT_MAX_TOKENS` has no effect. -/
theorem c9_tokens_never_enforced :
    (∀ (s : RLStore) (calls : List (String × Nat)),
      allTokensZero s = true → allTokensZero (runCalls s calls) = true)
    ∧ (∀ (f : Nat → Nat) (s : RLStore) (ip : String) (now : Nat),
      (checkRateLimit (withTokens f s) ip now).2 = (checkRateLimit s ip now).2) := by
  exact ⟨fun s calls hs => runCalls_tokens calls s hs,
    fun f s ip now => checkRateLimit_withTokens f s ip now⟩

/-- Witness for C9: both conjuncts applied at concrete inputs. -/
theorem c9_tokens_never_enforced_witness :
    allTokensZero (runCalls [] [("1.2.3.4", 50), ("1.2.3.4", 60), ("5.6.7.8", 70)]) = true
    ∧ (checkRateLimit (withTokens (fun _ => 99999) [("a", ⟨3, 0, 100⟩)]) "a" 50).2 =
        (checkRateLimit [("a", ⟨3, 0, 100⟩)] "a" 50).2 := by
  exact ⟨c9_tokens_never_enforced.1 [] _ rfl,
    c9_tokens_never_enforced.2 (fun _ => 99999) [("a", ⟨3, 0, 100⟩)] "a" 50⟩

/-- Claim C10: `crypto.timingSafeEqual` is only ever invoked on two
buffers of equal length, so it never throws; whenever the supplied
secret or hash differs in byte length from the expected value, the
enhanced handler answers 401 without invoking `timingSafeEqual` for
that comparison (`tseCalls` stays 0 for the secret check, and stays
at the single secret-check invocation for the hash check). -/
theorem c10_equal_length_guard :
    (∀ a b : String, (compareWithLog a b).2 = true →
      bufLen a = bufLen b ∧ timingSafeEq a b = .ok (a == b))
    ∧ (∀ (md5 : String → String) (jparse : String → Option JValue)
        (base : String) (tsOpt : Option String) (sec ms hsh : String)
        (nowMs : Nat) (u : Upstream) (store : RLStore) (es : String) (leg : Bool),
      deriveSecret base tsOpt sec nowMs = .secret es leg →
      bufLen sec ≠ bufLen es →
      enhAuth md5 jparse base tsOpt sec ms hsh nowMs u store =
        ⟨401, .jsonError "Invalid authentication", 0, 0, store, none⟩)
    ∧ (∀ (md5 : String → String) (jparse : String → Option JValue)
        (base : String) (tsOpt : Option String) (sec ms hsh : String)
        (nowMs : Nat) (u : Upstream) (store : RLStore) (es : String) (leg : Bool),
      deriveSecret base tsOpt sec nowMs = .secret es leg →
      sec = es → bufLen hsh ≠ bufLen (md5 (ms ++ es)) →
      enhAuth md5 jparse base tsOpt sec ms hsh nowMs u store =
        ⟨401, .jsonError "Invalid authentication", 0, 1, store, none⟩) := by
  refine ⟨?_, ?_, ?_⟩
  · intro a b h
    exact ⟨compareWithLog_called_len a b h,
      timingSafeEq_ok_of_len a b (compareWithLog_called_len a b h)⟩
  · intro md5 jparse base tsOpt sec ms hsh nowMs u store es leg hd hlen
    have hne : sec ≠ es := fun he => hlen (by rw [he])
    rw [enhAuth_badSecret md5 jparse base tsOpt sec ms hsh nowMs u store es leg hd hne,
      compareWithLog_len_ne sec es hlen]
    rfl
  · intro md5 jparse base tsOpt sec ms hsh nowMs u store es leg hd hsec hlen
    have hne : hsh ≠ md5 (ms ++ es) := fun he => hlen (by rw [he])
    rw [enhAuth_badHash md5 jparse base tsOpt sec ms hsh nowMs u store es leg hd hsec hne,
      compareWithLog_len_ne hsh (md5 (ms ++ es)) hlen]
    rfl

/-- Witness for C10: concrete unequal-length secret and hash. -/
theorem c10_equal_length_guard_witness :
    (bufLen "ab" = bufLen "cd" ∧ timingSafeEq "ab" "cd" = .ok ("ab" == "cd"))
    ∧ enhAuth md5Fix jparseFix "sek" none "x" "[1]" "hh" 0 upOk [] =
        ⟨401, .jsonError "Invalid authentication", 0, 0, [], none⟩
    ∧ enhAuth md5Fix jparseFix "sek" none "sek" "[1]" "zz" 0 upOk [] =
        ⟨401, .jsonError "Invalid authentication", 0, 1, [], none⟩ := by
  refine ⟨c10_equal_length_guard.1 "ab" "cd" rfl, ?_, ?_⟩
  · exact c10_equal_length_guard.2.1 md5Fix jparseFix "sek" none "x" "[1]" "hh" 0
      upOk [] "sek" true rfl (by decide)
  · exact c10_equal_length_guard.2.2 md5Fix jparseFix "sek" none "sek" "[1]" "zz" 0
      upOk [] "sek" true rfl rfl (by decide)

/-- Claim C8 counterexample: an OPTIONS request is not POST, yet the
enhanced handler answers it with 200, not 405. -/
theorem c8_counterexample :
    reqOpts.method ≠ "POST"
    ∧ (enhancedHandler md5Fix jparseFix (some "sek") [] reqOpts 1000 upOk).status = 200
    ∧ ¬ (enhancedHandler md5Fix jparseFix (some "sek") [] reqOpts 1000 upOk).status = 405 := by
  refine ⟨by decide, rfl, by decide⟩

/-- Claim C8 (amended): the simple handler returns 405 "Method not
allowed" for every non-POST request; the CORS-enabled enhanced
handler answers OPTIONS with 200 and an empty body, and every other
non-POST method with 405; in each case no authentication,
transformation or forwarding is performed (no upstream call, no
comparison, no conversion, rate-limit store untouched). -/
theorem c8_method_gate :
    (∀ (md5 : String → String) (jparse : String → Option JValue)
       (env : Option String) (req : SimpleReq) (u : Upstream),
      req.method ≠ "POST" →
      simpleHandler md5 jparse env req u =
        ⟨405, .jsonError "Method not allowed", 0, none⟩)
    ∧ (∀ (md5 : String → String) (jparse : String → Option JValue)
        (env : Option String) (store : RLStore) (req : EnhReq) (nowMs : Nat)
        (u : Upstream),
      req.method = "OPTIONS" →
      enhancedHandler md5 jparse env store req nowMs u =
        ⟨200, .empty, 0, 0, store, none⟩)
    ∧ (∀ (md5 : String → String) (jparse : String → Option JValue)
        (env : Option String) (store : RLStore) (req : EnhReq) (nowMs : Nat)
        (u : Upstream),
      req.method ≠ "POST" → req.method ≠ "OPTIONS" →
      enhancedHandler md5 jparse env store req nowMs u =
        ⟨405, .jsonError "Method not allowed", 0, 0, store, none⟩) := by
  refine ⟨?_, ?_, ?_⟩
  · intro md5 jparse env req u h
    unfold simpleHandler
    rw [if_pos h]
  · intro md5 jparse env store req nowMs u h
    simp [enhancedHandler, h]
  · intro md5 jparse env store req nowMs u h1 h2
    simp [enhancedHandler, h1, h2]

/-- Witness for C8 (amended): a GET to the simple handler, OPTIONS
and DELETE to the enhanced handler. -/
theorem c8_method_gate_witness :
    simpleHandler md5Fix jparseFix (some "sek") ⟨"GET", some "[1]", some "H[1]sek"⟩ upOk =
      ⟨405, .jsonError "Method not allowed", 0, none⟩
    ∧ enhancedHandler md5Fix jparseFix (some "sek") [] reqOpts 1000 upOk =
      ⟨200, .empty, 0, 0, [], none⟩
    ∧ enhancedHandler md5Fix jparseFix (some "sek") []
        ⟨"DELETE", some "application/json", some "[1]", some "H[1]sek", none,
         some "sek", none, none, none, some "9.9.9.9", none, none, none⟩ 1000 upOk =
      ⟨405, .jsonError "Method not allowed", 0, 0, [], none⟩ := by
  refine ⟨?_, ?_, ?_⟩
  · exact c8_method_gate.1 md5Fix jparseFix (some "sek") _ upOk (by decide)
  · exact c8_method_gate.2.1 md5Fix jparseFix (some "sek") [] reqOpts 1000 upOk rfl
  · exact c8_method_gate.2.2 md5Fix jparseFix (some "sek") [] _ 1000 upOk
      (by decide) (by decide)

/-- Claim C1: for every POST request that reaches the hash check, a
supplied hash equal to the MD5 digest of the messages string
concatenated with the expected secret lets the request continue past
authentication (and be forwarded upstream once the messages are
well-formed), while a differing hash is answered with 401 "Invalid
authentication" and the upstream API is never called.  Stated for
both handlers of src/api/proxy.js. -/
theorem c1_hash_gate :
    (∀ (md5 : String → String) (jparse : String → Option JValue)
       (env : Option String) (req : SimpleReq) (u : Upstream) (ms hsh : String),
      req.method = "POST" → req.messages = some ms → ms ≠ "" →
      req.hash = some hsh → hsh ≠ "" →
      ((hsh ≠ md5 (ms ++ jsOrStr env "your_secure_secret_key_here") →
         simpleHandler md5 jparse env req u =
           ⟨401, .jsonError "Invalid authentication", 0, none⟩)
       ∧ (hsh = md5 (ms ++ jsOrStr env "your_secure_secret_key_here") →
          (simpleHandler md5 jparse env req u).body ≠ .jsonError "Invalid authentication"
          ∧ (∀ parsed conv, jparse ms = some (.jarr parsed) →
              mapConvert convertSimple parsed = .ok conv →
              (simpleHandler md5 jparse env req u).upstreamCalls = 1))))
    ∧ (∀ (md5 : String → String) (jparse : String → Option JValue)
        (env : Option String) (store : RLStore) (req : EnhReq) (nowMs : Nat)
        (u : Upstream) (base es : String) (leg : Bool),
      req.method = "POST" →
      (checkRateLimit store (getClientIP req) nowMs).2.allowed = true →
      (strIncludes (req.contentType.getD "") "application/json" ||
       strIncludes (req.contentType.getD "") "application/x-www-form-urlencoded") = true →
      truthyStr req.bodyMessages = true →
      truthyStr (firstTruthy req.bodyHash req.hdrHash) = true →
      truthyStr (firstTruthy req.bodySecret req.hdrSecret) = true →
      ¬ (req.bodyMessages.getD "").length > MAX_MESSAGE_LENGTH →
      env = some base → base ≠ "" →
      deriveSecret base (firstTruthy req.bodyTimestamp req.hdrTimestamp)
        ((firstTruthy req.bodySecret req.hdrSecret).getD "") nowMs = .secret es leg →
      (firstTruthy req.bodySecret req.hdrSecret).getD "" = es →
      (((firstTruthy req.bodyHash req.hdrHash).getD "" ≠
          md5 ((req.bodyMessages.getD "") ++ es) →
        (enhancedHandler md5 jparse env store req nowMs u).status = 401 ∧
        (enhancedHandler md5 jparse env store req nowMs u).body =
          .jsonError "Invalid authentication" ∧
        (enhancedHandler md5 jparse env store req nowMs u).upstreamCalls = 0)
       ∧ ((firstTruthy req.bodyHash req.hdrHash).getD "" =
            md5 ((req.bodyMessages.getD "") ++ es) →
          (enhancedHandler md5 jparse env store req nowMs u).body ≠
            .jsonError "Invalid authentication"
          ∧ (∀ parsed conv,
              jparse (req.bodyMessages.getD "") = some (.jarr parsed) →
              parsed ≠ [] → mapConvert convertEnh parsed = .ok conv →
              (enhancedHandler md5 jparse env store req nowMs u).upstreamCalls = 1)))) := by
  constructor
  · intro md5 jparse env req u ms hsh hmethod hm hms hh hhs
    have hpath := simpleHandler_auth_path md5 jparse env req u ms hsh hmethod hm hms hh hhs
    constructor
    · intro hne
      rw [hpath, if_pos hne]
    · intro heq
      rw [hpath, if_neg (not_not_intro heq)]
      refine ⟨simpleParse_body_ne_invalidAuth jparse ms u, ?_⟩
      intro parsed conv hp hc
      exact simpleParse_calls jparse ms u parsed conv hp hc
  · intro md5 jparse env store req nowMs u base es leg hmethod hrl hct hm hh hs
      hlen henv hbase hd hsec
    have henvT : truthyStr env = true := by rw [henv]; exact truthyStr_some hbase
    have hpath := enhancedHandler_auth_path md5 jparse env store req nowMs u
      hmethod hrl hct hm hh hs hlen henvT
    have henvD : env.getD "" = base := by rw [henv]; rfl
    rw [henvD] at hpath
    constructor
    · intro hne
      rw [hpath, enhAuth_badHash md5 jparse base _ _ _ _ nowMs u _ es leg hd hsec hne]
      exact ⟨rfl, rfl, rfl⟩
    · intro heq
      rw [hpath, enhAuth_pass md5 jparse base _ _ _ _ nowMs u _ es leg hd hsec heq]
      refine ⟨enhParse_body_ne_invalidAuth jparse _ u 2 _, ?_⟩
      intro parsed conv hp hpn hc
      rw [enhParse_eq_forward jparse _ u 2 _ parsed conv hp hpn hc]
      exact enhForward_calls u conv 2 _

/-- Witness for C1: a wrong hash is rejected with 401, the right hash
reaches the upstream call, in both handlers. -/
theorem c1_hash_gate_witness :
    simpleHandler md5Fix jparseFix (some "sek") ⟨"POST", some "[1]", some "bad"⟩ upOk =
      ⟨401, .jsonError "Invalid authentication", 0, none⟩
    ∧ (simpleHandler md5Fix jparseFix (some "sek") sreqFix upOk).upstreamCalls = 1
    ∧ (enhancedHandler md5Fix jparseFix (some "sek") [] reqBadHash 1000 upOk).status = 401
    ∧ (enhancedHandler md5Fix jparseFix (some "sek") [] reqLegacy 1000 upOk).upstreamCalls = 1 := by
  refine ⟨?_, ?_, ?_, ?_⟩
  · exact ((c1_hash_gate.1 md5Fix jparseFix (some "sek") _ upOk "[1]" "bad"
      rfl rfl (by decide) rfl (by decide)).1 (by decide))
  · exact ((c1_hash_gate.1 md5Fix jparseFix (some "sek") sreqFix upOk "[1]" "H[1]sek"
      rfl rfl (by decide) rfl (by decide)).2 rfl).2 [.jnum 1] _ rfl rfl
  · exact ((c1_hash_gate.2 md5Fix jparseFix (some "sek") [] reqBadHash 1000 upOk "sek" "sek" true
      rfl (by decide) (by decide) rfl rfl rfl (by decide) rfl (by decide) rfl rfl).1
      (by decide)).1
  · exact ((c1_hash_gate.2 md5Fix jparseFix (some "sek") [] reqLegacy 1000 upOk "sek" "sek" true
      rfl (by decide) (by decide) rfl rfl rfl (by decide) rfl (by decide) rfl rfl).2
      rfl).2 [.jnum 1] _ rfl (List.cons_ne_nil _ _) rfl

/-- Claim C2: with a supplied timestamp and an underscore in the
supplied secret, authentication uses the dynamic secret
baseSecret_timestamp, after a 300-second window check that rejects
stale timestamps with 401 "Request timestamp expired" before any
secret comparison; otherwise the base secret alone is expected
(legacy authentication). -/
theorem c2_timestamp_dynamic_secret
    (md5 : String → String) (jparse : String → Option JValue) (env : Option String)
    (store : RLStore) (req : EnhReq) (nowMs : Nat) (u : Upstream) (base : String)
    (hmethod : req.method = "POST")
    (hrl : (checkRateLimit store (getClientIP req) nowMs).2.allowed = true)
    (hct : (strIncludes (req.contentType.getD "") "application/json" ||
            strIncludes (req.contentType.getD "") "application/x-www-form-urlencoded") = true)
    (hm : truthyStr req.bodyMessages = true)
    (hh : truthyStr (firstTruthy req.bodyHash req.hdrHash) = true)
    (hs : truthyStr (firstTruthy req.bodySecret req.hdrSecret) = true)
    (hlen : ¬ (req.bodyMessages.getD "").length > MAX_MESSAGE_LENGTH)
    (henv : env = some base) (hbase : base ≠ "") :
    (∀ (tss : String) (rt : Int),
      firstTruthy req.bodyTimestamp req.hdrTimestamp = some tss → tss ≠ "" →
      strContainsChar ((firstTruthy req.bodySecret req.hdrSecret).getD "") '_' = true →
      parseIntJs tss = some rt →
      300 < ((nowMs / 1000 : Nat) - rt : Int).natAbs →
      enhancedHandler md5 jparse env store req nowMs u =
        ⟨401, .jsonError "Request timestamp expired", 0, 0,
          (checkRateLimit store (getClientIP req) nowMs).1, none⟩)
    ∧ (∀ (tss : String) (rt : Int),
      firstTruthy req.bodyTimestamp req.hdrTimestamp = some tss → tss ≠ "" →
      strContainsChar ((firstTruthy req.bodySecret req.hdrSecret).getD "") '_' = true →
      parseIntJs tss = some rt →
      ¬ 300 < ((nowMs / 1000 : Nat) - rt : Int).natAbs →
      (((firstTruthy req.bodySecret req.hdrSecret).getD "" ≠ base ++ "_" ++ tss →
        (enhancedHandler md5 jparse env store req nowMs u).status = 401 ∧
        (enhancedHandler md5 jparse env store req nowMs u).body =
          .jsonError "Invalid authentication" ∧
        (enhancedHandler md5 jparse env store req nowMs u).upstreamCalls = 0)
       ∧ ((firstTruthy req.bodySecret req.hdrSecret).getD "" = base ++ "_" ++ tss →
          (firstTruthy req.bodyHash req.hdrHash).getD "" =
            md5 ((req.bodyMessages.getD "") ++ (base ++ "_" ++ tss)) →
          (enhancedHandler md5 jparse env store req nowMs u).body ≠
            .jsonError "Invalid authentication")))
    ∧ ((truthyStr (firstTruthy req.bodyTimestamp req.hdrTimestamp) = false ∨
        strContainsChar ((firstTruthy req.bodySecret req.hdrSecret).getD "") '_' = false) →
      (((firstTruthy req.bodySecret req.hdrSecret).getD "" ≠ base →
        (enhancedHandler md5 jparse env store req nowMs u).status = 401 ∧
        (enhancedHandler md5 jparse env store req nowMs u).body =
          .jsonError "Invalid authentication" ∧
        (enhancedHandler md5 jparse env store req nowMs u).upstreamCalls = 0)
       ∧ ((firstTruthy req.bodySecret req.hdrSecret).getD "" = base →
          (firstTruthy req.bodyHash req.hdrHash).getD "" =
            md5 ((req.bodyMessages.getD "") ++ base) →
          (enhancedHandler md5 jparse env store req nowMs u).body ≠
            .jsonError "Invalid authentication"))) := by
  have henvT : truthyStr env = true := by rw [henv]; exact truthyStr_some hbase
  have hpath := enhancedHandler_auth_path md5 jparse env store req nowMs u
    hmethod hrl hct hm hh hs hlen henvT
  have henvD : env.getD "" = base := by rw [henv]; rfl
  rw [henvD] at hpath
  refine ⟨?_, ?_, ?_⟩
  · intro tss rt hts htne hus hp hw
    rw [hpath, hts]
    exact enhAuth_expired md5 jparse base (some tss) _ _ _ nowMs u _
      (deriveSecret_expired_eq base tss _ nowMs rt htne hus hp hw)
  · intro tss rt hts htne hus hp hw
    have hd := deriveSecret_dyn_eq base tss _ nowMs rt htne hus hp hw
    rw [← hts] at hd
    constructor
    · intro hne
      rw [hpath, enhAuth_badSecret md5 jparse base _ _ _ _ nowMs u _ _ false hd hne]
      exact ⟨rfl, rfl, rfl⟩
    · intro hsec hhash
      rw [hpath, enhAuth_pass md5 jparse base _ _ _ _ nowMs u _ _ false hd hsec hhash]
      exact enhParse_body_ne_invalidAuth jparse _ u 2 _
  · intro hleg
    have hd := deriveSecret_legacy_eq base
      (firstTruthy req.bodyTimestamp req.hdrTimestamp)
      ((firstTruthy req.bodySecret req.hdrSecret).getD "") nowMs hleg
    constructor
    · intro hne
      rw [hpath, enhAuth_badSecret md5 jparse base _ _ _ _ nowMs u _ _ true hd hne]
      exact ⟨rfl, rfl, rfl⟩
    · intro hsec hhash
      rw [hpath, enhAuth_pass md5 jparse base _ _ _ _ nowMs u _ _ true hd hsec hhash]
      exact enhParse_body_ne_invalidAuth jparse _ u 2 _

/-- Witness for C2: a stale dynamic request is rejected as expired, a
fresh one authenticates against the dynamic secret, and a request
without a timestamp authenticates against the base secret. -/
theorem c2_timestamp_dynamic_secret_witness :
    enhancedHandler md5Fix jparseFix (some "sek") [] reqDyn 2000000 upOk =
      ⟨401, .jsonError "Request timestamp expired", 0, 0,
        (checkRateLimit [] (getClientIP reqDyn) 2000000).1, none⟩
    ∧ (enhancedHandler md5Fix jparseFix (some "sek") [] reqDyn 1000000 upOk).body ≠
        .jsonError "Invalid authentication"
    ∧ (enhancedHandler md5Fix jparseFix (some "sek") [] reqLegacy 1000 upOk).body ≠
        .jsonError "Invalid authentication" := by
  refine ⟨?_, ?_, ?_⟩
  · exact (c2_timestamp_dynamic_secret md5Fix jparseFix (some "sek") [] reqDyn
      2000000 upOk "sek" rfl (by decide) (by decide) rfl rfl rfl (by decide) rfl
      (by decide)).1 "1000" 1000 rfl (by decide) (by decide) (by decide) (by decide)
  · exact ((c2_timestamp_dynamic_secret md5Fix jparseFix (some "sek") [] reqDyn
      1000000 upOk "sek" rfl (by decide) (by decide) rfl rfl rfl (by decide) rfl
      (by decide)).2.1 "1000" 1000 rfl (by decide) (by decide) (by decide)
      (by decide)).2 rfl rfl
  · exact ((c2_timestamp_dynamic_secret md5Fix jparseFix (some "sek") [] reqLegacy
      1000 upOk "sek" rfl (by decide) (by decide) rfl rfl rfl (by decide) rfl
      (by decide)).2.2 (Or.inl rfl)).2 rfl rfl

/-- Claim C5: an authenticated request whose messages field does not
parse as JSON, or (in the enhanced handler) parses to a value that is
not an array or to an empty array, is answered with HTTP 400 (error
"Invalid messages format" or "Invalid messages structure") and the
upstream API is not called. -/
theorem c5_messages_validation :
    (∀ (md5 : String → String) (jparse : String → Option JValue)
       (env : Option String) (req : SimpleReq) (u : Upstream) (ms hsh : String),
      req.method = "POST" → req.messages = some ms → ms ≠ "" →
      req.hash = some hsh → hsh ≠ "" →
      hsh = md5 (ms ++ jsOrStr env "your_secure_secret_key_here") →
      jparse ms = none →
      simpleHandler md5 jparse env req u =
        ⟨400, .jsonError "Invalid messages format", 0, none⟩)
    ∧ (∀ (md5 : String → String) (jparse : String → Option JValue)
        (env : Option String) (store : RLStore) (req : EnhReq) (nowMs : Nat)
        (u : Upstream) (base es : String) (leg : Bool),
      req.method = "POST" →
      (checkRateLimit store (getClientIP req) nowMs).2.allowed = true →
      (strIncludes (req.contentType.getD "") "application/json" ||
       strIncludes (req.contentType.getD "") "application/x-www-form-urlencoded") = true →
      truthyStr req.bodyMessages = true →
      truthyStr (firstTruthy req.bodyHash req.hdrHash) = true →
      truthyStr (firstTruthy req.bodySecret req.hdrSecret) = true →
      ¬ (req.bodyMessages.getD "").length > MAX_MESSAGE_LENGTH →
      env = some base → base ≠ "" →
      deriveSecret base (firstTruthy req.bodyTimestamp req.hdrTimestamp)
        ((firstTruthy req.bodySecret req.hdrSecret).getD "") nowMs = .secret es leg →
      (firstTruthy req.bodySecret req.hdrSecret).getD "" = es →
      (firstTruthy req.bodyHash req.hdrHash).getD "" =
        md5 ((req.bodyMessages.getD "") ++ es) →
      ((jparse (req.bodyMessages.getD "") = none →
        enhancedHandler md5 jparse env store req nowMs u =
          ⟨400, .jsonError "Invalid messages format", 0, 2,
            (checkRateLimit store (getClientIP req) nowMs).1, none⟩)
       ∧ (∀ v : JValue, jparse (req.bodyMessages.getD "") = some v →
          (∀ xs, v ≠ JValue.jarr xs) →
          enhancedHandler md5 jparse env store req nowMs u =
            ⟨400, .jsonError "Invalid messages structure", 0, 2,
              (checkRateLimit store (getClientIP req) nowMs).1, none⟩)
       ∧ (jparse (req.bodyMessages.getD "") = some (.jarr []) →
          enhancedHandler md5 jparse env store req nowMs u =
            ⟨400, .jsonError "Invalid messages structure", 0, 2,
              (checkRateLimit store (getClientIP req) nowMs).1, none⟩))) := by
  constructor
  · intro md5 jparse env req u ms hsh hmethod hm hms hh hhs heq hp
    rw [simpleHandler_auth_path md5 jparse env req u ms hsh hmethod hm hms hh hhs,
      if_neg (not_not_intro heq)]
    exact simpleParse_none jparse ms u hp
  · intro md5 jparse env store req nowMs u base es leg hmethod hrl hct hm hh hs
      hlen henv hbase hd hsec hhash
    have henvT : truthyStr env = true := by rw [henv]; exact truthyStr_some hbase
    have hpath := enhancedHandler_auth_path md5 jparse env store req nowMs u
      hmethod hrl hct hm hh hs hlen henvT
    have henvD : env.getD "" = base := by rw [henv]; rfl
    rw [henvD] at hpath
    rw [hpath, enhAuth_pass md5 jparse base _ _ _ _ nowMs u _ es leg hd hsec hhash]
    refine ⟨?_, ?_, ?_⟩
    · intro hp
      exact enhParse_none jparse _ u 2 _ hp
    · intro v hp hv
      exact enhParse_not_array jparse _ u 2 _ v hp hv
    · intro hp
      exact enhParse_empty_array jparse _ u 2 _ hp

/-- Witness for C5: unparseable, non-array and empty-array messages
on concrete authenticated requests. -/
theorem c5_messages_validation_witness :
    simpleHandler md5Fix jparseFix (some "sek") sreqBadJson upOk =
      ⟨400, .jsonError "Invalid messages format", 0, none⟩
    ∧ enhancedHandler md5Fix jparseFix (some "sek") [] reqBadJson 1000 upOk =
      ⟨400, .jsonError "Invalid messages format", 0, 2,
        (checkRateLimit [] (getClientIP reqBadJson) 1000).1, none⟩
    ∧ enhancedHandler md5Fix jparseFix (some "sek") [] reqNonArr 1000 upOk =
      ⟨400, .jsonError "Invalid messages structure", 0, 2,
        (checkRateLimit [] (getClientIP reqNonArr) 1000).1, none⟩
    ∧ enhancedHandler md5Fix jparseFix (some "sek") [] reqEmptyArr 1000 upOk =
      ⟨400, .jsonError "Invalid messages structure", 0, 2,
        (checkRateLimit [] (getClientIP reqEmptyArr) 1000).1, none⟩ := by
  refine ⟨?_, ?_, ?_, ?_⟩
  · exact c5_messages_validation.1 md5Fix jparseFix (some "sek") sreqBadJson upOk
      "bad" "Hbadsek" rfl rfl (by decide) rfl (by decide) rfl rfl
  · exact (c5_messages_validation.2 md5Fix jparseFix (some "sek") [] reqBadJson
      1000 upOk "sek" "sek" true rfl (by decide) (by decide) rfl rfl rfl
      (by decide) rfl (by decide) rfl rfl rfl).1 rfl
  · exact (c5_messages_validation.2 md5Fix jparseFix (some "sek") [] reqNonArr
      1000 upOk "sek" "sek" true rfl (by decide) (by decide) rfl rfl rfl
      (by decide) rfl (by decide) rfl rfl rfl).2.1 (.jnum 5) rfl
      (fun xs h => JValue.noConfusion h)
  · exact (c5_messages_validation.2 md5Fix jparseFix (some "sek") [] reqEmptyArr
      1000 upOk "sek" "sek" true rfl (by decide) (by decide) rfl rfl rfl
      (by decide) rfl (by decide) rfl rfl rfl).2.2 rfl

/-- Claim C6 counterexample: with a failing upstream response of
status 429, the simple handler makes one upstream call but replies
with a fixed 500, so the upstream status code is not relayed as the
response status. -/
theorem c6_counterexample :
    upFail.ok = false ∧ upFail.status = 429
    ∧ (simpleHandler md5Fix jparseFix (some "sek") sreqFix upFail).upstreamCalls = 1
    ∧ (simpleHandler md5Fix jparseFix (some "sek") sreqFix upFail).status = 500
    ∧ ¬ (simpleHandler md5Fix jparseFix (some "sek") sreqFix upFail).status =
        upFail.status := by
  exact ⟨rfl, rfl, rfl, rfl, by decide⟩

/-- Claim C6 (amended): on an upstream response that is not ok, both
handlers make exactly one upstream call (no retry) and surface the
failure with error "OpenAI API request failed"; the enhanced handler
relays the upstream HTTP status code as the response status, while
the simple handler always responds 500. -/
theorem c6_upstream_failure :
    (∀ (md5 : String → String) (jparse : String → Option JValue)
       (env : Option String) (store : RLStore) (req : EnhReq) (nowMs : Nat)
       (u : Upstream) (base es : String) (leg : Bool)
       (parsed conv : List JValue),
      req.method = "POST" →
      (checkRateLimit store (getClientIP req) nowMs).2.allowed = true →
      (strIncludes (req.contentType.getD "") "application/json" ||
       strIncludes (req.contentType.getD "") "application/x-www-form-urlencoded") = true →
      truthyStr req.bodyMessages = true →
      truthyStr (firstTruthy req.bodyHash req.hdrHash) = true →
      truthyStr (firstTruthy req.bodySecret req.hdrSecret) = true →
      ¬ (req.bodyMessages.getD "").length > MAX_MESSAGE_LENGTH →
      env = some base → base ≠ "" →
      deriveSecret base (firstTruthy req.bodyTimestamp req.hdrTimestamp)
        ((firstTruthy req.bodySecret req.hdrSecret).getD "") nowMs = .secret es leg →
      (firstTruthy req.bodySecret req.hdrSecret).getD "" = es →
      (firstTruthy req.bodyHash req.hdrHash).getD "" =
        md5 ((req.bodyMessages.getD "") ++ es) →
      jparse (req.bodyMessages.getD "") = some (.jarr parsed) → parsed ≠ [] →
      mapConvert convertEnh parsed = .ok conv →
      u.ok = false →
      enhancedHandler md5 jparse env store req nowMs u =
        ⟨u.status, .jsonError "OpenAI API request failed", 1, 2,
          (checkRateLimit store (getClientIP req) nowMs).1, some conv⟩)
    ∧ (∀ (md5 : String → String) (jparse : String → Option JValue)
        (env : Option String) (req : SimpleReq) (u : Upstream) (ms hsh : String)
        (parsed conv : List JValue),
      req.method = "POST" → req.messages = some ms → ms ≠ "" →
      req.hash = some hsh → hsh ≠ "" →
      hsh = md5 (ms ++ jsOrStr env "your_secure_secret_key_here") →
      jparse ms = some (.jarr parsed) →
      mapConvert convertSimple parsed = .ok conv →
      u.ok = false →
      simpleHandler md5 jparse env req u =
        ⟨500, .jsonError "OpenAI API request failed", 1, some conv⟩) := by
  constructor
  · intro md5 jparse env store req nowMs u base es leg parsed conv hmethod hrl hct
      hm hh hs hlen henv hbase hd hsec hhash hp hpn hc hok
    have henvT : truthyStr env = true := by rw [henv]; exact truthyStr_some hbase
    have hpath := enhancedHandler_auth_path md5 jparse env store req nowMs u
      hmethod hrl hct hm hh hs hlen henvT
    have henvD : env.getD "" = base := by rw [henv]; rfl
    rw [henvD] at hpath
    rw [hpath, enhAuth_pass md5 jparse base _ _ _ _ nowMs u _ es leg hd hsec hhash,
      enhParse_eq_forward jparse _ u 2 _ parsed conv hp hpn hc]
    exact enhForward_notOk u conv 2 _ hok
  · intro md5 jparse env req u ms hsh parsed conv hmethod hm hms hh hhs heq hp hc hok
    rw [simpleHandler_auth_path md5 jparse env req u ms hsh hmethod hm hms hh hhs,
      if_neg (not_not_intro heq)]
    exact simpleParse_notOk jparse ms u parsed conv hp hc hok

/-- Witness for C6 (amended): a concrete 429 upstream failure. -/
theorem c6_upstream_failure_witness :
    enhancedHandler md5Fix jparseFix (some "sek") [] reqLegacy 1000 upFail =
      ⟨429, .jsonError "OpenAI API request failed", 1, 2,
        (checkRateLimit [] (getClientIP reqLegacy) 1000).1,
        some [.jobj [("role", .jstr "user"), ("content", .jstr "")]]⟩
    ∧ simpleHandler md5Fix jparseFix (some "sek") sreqFix upFail =
      ⟨500, .jsonError "OpenAI API request failed", 1,
        some [.jobj [("role", .null), ("content", .null)]]⟩ := by
  constructor
  · exact c6_upstream_failure.1 md5Fix jparseFix (some "sek") [] reqLegacy 1000
      upFail "sek" "sek" true [.jnum 1]
      [.jobj [("role", .jstr "user"), ("content", .jstr "")]]
      rfl (by decide) (by decide) rfl rfl rfl (by decide) rfl (by decide) rfl rfl
      rfl rfl (List.cons_ne_nil _ _) rfl rfl
  · exact c6_upstream_failure.2 md5Fix jparseFix (some "sek") sreqFix upFail
      "[1]" "H[1]sek" [.jnum 1] [.jobj [("role", .null), ("content", .null)]]
      rfl rfl (by decide) rfl (by decide) rfl rfl rfl rfl

/-- Claim C7 counterexample: successful upstream responses that are
not answered by echoing the content with HTTP 200: an empty
completion content makes the simple handler reply the fallback text
"No response generated" instead of the content, and a success with
an empty choices array makes the enhanced handler reply 500. -/
theorem c7_counterexample :
    upEmptyContent.ok = true
    ∧ upEmptyContent.choiceContents = [""]
    ∧ (simpleHandler md5Fix jparseFix (some "sek") sreqFix upEmptyContent).status = 200
    ∧ (simpleHandler md5Fix jparseFix (some "sek") sreqFix upEmptyContent).body =
        .text "No response generated"
    ∧ ¬ (simpleHandler md5Fix jparseFix (some "sek") sreqFix upEmptyContent).body =
        .text ""
    ∧ upNoChoices.ok = true
    ∧ (enhancedHandler md5Fix jparseFix (some "sek") [] reqLegacy 1000 upNoChoices).status = 500
    ∧ ¬ (enhancedHandler md5Fix jparseFix (some "sek") [] reqLegacy 1000 upNoChoices).status
        = 200 := by
  refine ⟨rfl, rfl, rfl, rfl, by decide, rfl, rfl, by decide⟩

/-- Claim C7 (amended): on a successful upstream response whose first
choice has nonempty content, the reply to the client is HTTP 200
echoing choices[0].message.content — as a plain-text body in the
simple handler and as the JSON object with a single
choices/message/content field in the enhanced handler, with no other
field of the upstream response relayed; when the first completion
content is empty or the choices array is empty, the simple handler
replies 200 with the fallback text "No response generated", and the
enhanced handler replies 500 on a success without choices. -/
theorem c7_success_echo :
    (∀ (md5 : String → String) (jparse : String → Option JValue)
       (env : Option String) (store : RLStore) (req : EnhReq) (nowMs : Nat)
       (u : Upstream) (base es : String) (leg : Bool)
       (parsed conv : List JValue) (c : String) (cs : List String),
      req.method = "POST" →
      (checkRateLimit store (getClientIP req) nowMs).2.allowed = true →
      (strIncludes (req.contentType.getD "") "application/json" ||
       strIncludes (req.contentType.getD "") "application/x-www-form-urlencoded") = true →
      truthyStr req.bodyMessages = true →
      truthyStr (firstTruthy req.bodyHash req.hdrHash) = true →
      truthyStr (firstTruthy req.bodySecret req.hdrSecret) = true →
      ¬ (req.bodyMessages.getD "").length > MAX_MESSAGE_LENGTH →
      env = some base → base ≠ "" →
      deriveSecret base (firstTruthy req.bodyTimestamp req.hdrTimestamp)
        ((firstTruthy req.bodySecret req.hdrSecret).getD "") nowMs = .secret es leg →
      (firstTruthy req.bodySecret req.hdrSecret).getD "" = es →
      (firstTruthy req.bodyHash req.hdrHash).getD "" =
        md5 ((req.bodyMessages.getD "") ++ es) →
      jparse (req.bodyMessages.getD "") = some (.jarr parsed) → parsed ≠ [] →
      mapConvert convertEnh parsed = .ok conv →
      u.ok = true → u.choiceContents = c :: cs →
      enhancedHandler md5 jparse env store req nowMs u =
        ⟨200, .jsonChoices c, 1, 2,
          (checkRateLimit store (getClientIP req) nowMs).1, some conv⟩)
    ∧ (∀ (md5 : String → String) (jparse : String → Option JValue)
        (env : Option String) (req : SimpleReq) (u : Upstream) (ms hsh : String)
        (parsed conv : List JValue) (c : String) (cs : List String),
      req.method = "POST" → req.messages = some ms → ms ≠ "" →
      req.hash = some hsh → hsh ≠ "" →
      hsh = md5 (ms ++ jsOrStr env "your_secure_secret_key_here") →
      jparse ms = some (.jarr parsed) →
      mapConvert convertSimple parsed = .ok conv →
      u.ok = true → u.choiceContents = c :: cs → c ≠ "" →
      simpleHandler md5 jparse env req u = ⟨200, .text c, 1, some conv⟩)
    ∧ (∀ (md5 : String → String) (jparse : String → Option JValue)
        (env : Option String) (req : SimpleReq) (u : Upstream) (ms hsh : String)
        (parsed conv : List JValue) (cs : List String),
      req.method = "POST" → req.messages = some ms → ms ≠ "" →
      req.hash = some hsh → hsh ≠ "" →
      hsh = md5 (ms ++ jsOrStr env "your_secure_secret_key_here") →
      jparse ms = some (.jarr parsed) →
      mapConvert convertSimple parsed = .ok conv →
      u.ok = true → u.choiceContents = "" :: cs →
      simpleHandler md5 jparse env req u =
        ⟨200, .text "No response generated", 1, some conv⟩)
    ∧ (∀ (md5 : String → String) (jparse : String → Option JValue)
        (env : Option String) (req : SimpleReq) (u : Upstream) (ms hsh : String)
        (parsed conv : List JValue),
      req.method = "POST" → req.messages = some ms → ms ≠ "" →
      req.hash = some hsh → hsh ≠ "" →
      hsh = md5 (ms ++ jsOrStr env "your_secure_secret_key_here") →
      jparse ms = some (.jarr parsed) →
      mapConvert convertSimple parsed = .ok conv →
      u.ok = true → u.choiceContents = [] →
      simpleHandler md5 jparse env req u =
        ⟨200, .text "No response generated", 1, some conv⟩)
    ∧ (∀ (md5 : String → String) (jparse : String → Option JValue)
        (env : Option String) (store : RLStore) (req : EnhReq) (nowMs : Nat)
        (u : Upstream) (base es : String) (leg : Bool)
        (parsed conv : List JValue),
      req.method = "POST" →
      (checkRateLimit store (getClientIP req) nowMs).2.allowed = true →
      (strIncludes (req.contentType.getD "") "application/json" ||
       strIncludes (req.contentType.getD "") "application/x-www-form-urlencoded") = true →
      truthyStr req.bodyMessages = true →
      truthyStr (firstTruthy req.bodyHash req.hdrHash) = true →
      truthyStr (firstTruthy req.bodySecret req.hdrSecret) = true →
      ¬ (req.bodyMessages.getD "").length > MAX_MESSAGE_LENGTH →
      env = some base → base ≠ "" →
      deriveSecret base (firstTruthy req.bodyTimestamp req.hdrTimestamp)
        ((firstTruthy req.bodySecret req.hdrSecret).getD "") nowMs = .secret es leg →
      (firstTruthy req.bodySecret req.hdrSecret).getD "" = es →
      (firstTruthy req.bodyHash req.hdrHash).getD "" =
        md5 ((req.bodyMessages.getD "") ++ es) →
      jparse (req.bodyMessages.getD "") = some (.jarr parsed) → parsed ≠ [] →
      mapConvert convertEnh parsed = .ok conv →
      u.ok = true → u.choiceContents = [] →
      enhancedHandler md5 jparse env store req nowMs u =
        ⟨500, .jsonError "Internal server error", 1, 2,
          (checkRateLimit store (getClientIP req) nowMs).1, some conv⟩) := by
  refine ⟨?_, ?_, ?_, ?_, ?_⟩
  · intro md5 jparse env store req nowMs u base es leg parsed conv c cs hmethod hrl
      hct hm hh hs hlen henv hbase hd hsec hhash hp hpn hcv hok hcc
    have henvT : truthyStr env = true := by rw [henv]; exact truthyStr_some hbase
    have hpath := enhancedHandler_auth_path md5 jparse env store req nowMs u
      hmethod hrl hct hm hh hs hlen henvT
    have henvD : env.getD "" = base := by rw [henv]; rfl
    rw [henvD] at hpath
    rw [hpath, enhAuth_pass md5 jparse base _ _ _ _ nowMs u _ es leg hd hsec hhash,
      enhParse_eq_forward jparse _ u 2 _ parsed conv hp hpn hcv]
    exact enhForward_ok u conv 2 _ c cs hok hcc
  · intro md5 jparse env req u ms hsh parsed conv c cs hmethod hm hms hh hhs heq
      hp hcv hok hcc hcne
    rw [simpleHandler_auth_path md5 jparse env req u ms hsh hmethod hm hms hh hhs,
      if_neg (not_not_intro heq)]
    exact simpleParse_ok jparse ms u parsed conv c cs hp hcv hok hcc hcne
  · intro md5 jparse env req u ms hsh parsed conv cs hmethod hm hms hh hhs heq
      hp hcv hok hcc
    rw [simpleHandler_auth_path md5 jparse env req u ms hsh hmethod hm hms hh hhs,
      if_neg (not_not_intro heq)]
    exact simpleParse_empty_content jparse ms u parsed conv cs hp hcv hok hcc
  · intro md5 jparse env req u ms hsh parsed conv hmethod hm hms hh hhs heq
      hp hcv hok hcc
    rw [simpleHandler_auth_path md5 jparse env req u ms hsh hmethod hm hms hh hhs,
      if_neg (not_not_intro heq)]
    exact simpleParse_no_choices jparse ms u parsed conv hp hcv hok hcc
  · intro md5 jparse env store req nowMs u base es leg parsed conv hmethod hrl
      hct hm hh hs hlen henv hbase hd hsec hhash hp hpn hcv hok hcc
    have henvT : truthyStr env = true := by rw [henv]; exact truthyStr_some hbase
    have hpath := enhancedHandler_auth_path md5 jparse env store req nowMs u
      hmethod hrl hct hm hh hs hlen henvT
    have henvD : env.getD "" = base := by rw [henv]; rfl
    rw [henvD] at hpath
    rw [hpath, enhAuth_pass md5 jparse base _ _ _ _ nowMs u _ es leg hd hsec hhash,
      enhParse_eq_forward jparse _ u 2 _ parsed conv hp hpn hcv]
    exact enhForward_no_choices u conv 2 _ hok hcc

/-- Witness for C7 (amended): the echo of content "hi" in both
handlers, the fallback text at empty content and at no choices, and
the 500 of the enhanced handler at no choices. -/
theorem c7_success_echo_witness :
    enhancedHandler md5Fix jparseFix (some "sek") [] reqLegacy 1000 upOk =
      ⟨200, .jsonChoices "hi", 1, 2,
        (checkRateLimit [] (getClientIP reqLegacy) 1000).1,
        some [.jobj [("role", .jstr "user"), ("content", .jstr "")]]⟩
    ∧ simpleHandler md5Fix jparseFix (some "sek") sreqFix upOk =
      ⟨200, .text "hi", 1, some [.jobj [("role", .null), ("content", .null)]]⟩
    ∧ simpleHandler md5Fix jparseFix (some "sek") sreqFix upEmptyContent =
      ⟨200, .text "No response generated", 1,
        some [.jobj [("role", .null), ("content", .null)]]⟩
    ∧ simpleHandler md5Fix jparseFix (some "sek") sreqFix upNoChoices =
      ⟨200, .text "No response generated", 1,
        some [.jobj [("role", .null), ("content", .null)]]⟩
    ∧ enhancedHandler md5Fix jparseFix (some "sek") [] reqLegacy 1000 upNoChoices =
      ⟨500, .jsonError "Internal server error", 1, 2,
        (checkRateLimit [] (getClientIP reqLegacy) 1000).1,
        some [.jobj [("role", .jstr "user"), ("content", .jstr "")]]⟩ := by
  refine ⟨?_, ?_, ?_, ?_, ?_⟩
  · exact c7_success_echo.1 md5Fix jparseFix (some "sek") [] reqLegacy 1000
      upOk "sek" "sek" true [.jnum 1]
      [.jobj [("role", .jstr "user"), ("content", .jstr "")]] "hi" []
      rfl (by decide) (by decide) rfl rfl rfl (by decide) rfl (by decide) rfl rfl
      rfl rfl (List.cons_ne_nil _ _) rfl rfl rfl
  · exact c7_success_echo.2.1 md5Fix jparseFix (some "sek") sreqFix upOk
      "[1]" "H[1]sek" [.jnum 1] [.jobj [("role", .null), ("content", .null)]]
      "hi" [] rfl rfl (by decide) rfl (by decide) rfl rfl rfl rfl rfl (by decide)
  · exact c7_success_echo.2.2.1 md5Fix jparseFix (some "sek") sreqFix upEmptyContent
      "[1]" "H[1]sek" [.jnum 1] [.jobj [("role", .null), ("content", .null)]]
      [] rfl rfl (by decide) rfl (by decide) rfl rfl rfl rfl rfl
  · exact c7_success_echo.2.2.2.1 md5Fix jparseFix (some "sek") sreqFix upNoChoices
      "[1]" "H[1]sek" [.jnum 1] [.jobj [("role", .null), ("content", .null)]]
      rfl rfl (by decide) rfl (by decide) rfl rfl rfl rfl rfl
  · exact c7_success_echo.2.2.2.2 md5Fix jparseFix (some "sek") [] reqLegacy 1000
      upNoChoices "sek" "sek" true [.jnum 1]
      [.jobj [("role", .jstr "user"), ("content", .jstr "")]]
      rfl (by decide) (by decide) rfl rfl rfl (by decide) rfl (by decide) rfl rfl
      rfl rfl (List.cons_ne_nil _ _) rfl rfl rfl
